import Mathlib

/-!
Verification of the Kynex 2D rigid-body physics engine.

The engine's `f32` arithmetic is modelled by `Flt`: exact rational arithmetic
extended with the IEEE-754 special values `inf`, `ninf` (negative infinity)
and `nan`.  Rounding is idealised away (finite operations are exact), but the
propagation rules for the special values — in particular division by zero and
`0 * inf = nan` — follow IEEE-754, since several properties of the engine
hinge on exactly those cases.  `Flt.sqrt` uses `Rat.sqrt`, which is exact on
perfect rational squares (the only case in which any property below depends
on the value of a square root).

Sources embedded: `src/math/mod.rs` (Vec2, cross helpers), `src/shape.rs`,
`src/body.rs` (Body, constructors, apply_force), `src/collision/mod.rs`
(Contact, Manifold), `src/collision/circle_circle.rs`, and `src/world.rs`
(World, step pipeline, solve_contact, positional_correction, get2_mut).
-/

/-- Model of `f32`: exact rationals plus the IEEE special values. -/
inductive Flt where
  | fin : ℚ → Flt
  | inf : Flt
  | ninf : Flt
  | nan : Flt
deriving DecidableEq, Repr

namespace Flt

/-- IEEE addition (no rounding on finite values). -/
def add : Flt → Flt → Flt
  | fin a, fin b => fin (a + b)
  | fin _, inf => inf
  | fin _, ninf => ninf
  | fin _, nan => nan
  | inf, fin _ => inf
  | inf, inf => inf
  | inf, ninf => nan
  | inf, nan => nan
  | ninf, fin _ => ninf
  | ninf, inf => nan
  | ninf, ninf => ninf
  | ninf, nan => nan
  | nan, _ => nan

/-- IEEE negation. -/
def neg : Flt → Flt
  | fin a => fin (-a)
  | inf => ninf
  | ninf => inf
  | nan => nan

/-- IEEE subtraction. -/
def sub (x y : Flt) : Flt := add x (neg y)

/-- IEEE multiplication; `0 * inf = nan`. -/
def mul : Flt → Flt → Flt
  | fin a, fin b => fin (a * b)
  | fin a, inf => if a = 0 then nan else if 0 < a then inf else ninf
  | fin a, ninf => if a = 0 then nan else if 0 < a then ninf else inf
  | fin _, nan => nan
  | inf, fin b => if b = 0 then nan else if 0 < b then inf else ninf
  | inf, inf => inf
  | inf, ninf => ninf
  | inf, nan => nan
  | ninf, fin b => if b = 0 then nan else if 0 < b then ninf else inf
  | ninf, inf => ninf
  | ninf, ninf => inf
  | ninf, nan => nan
  | nan, _ => nan

/-- IEEE division; finite / 0 gives `inf`, `ninf` or `nan` by the sign of the
numerator (the model has no negative zero). -/
def div : Flt → Flt → Flt
  | fin a, fin b =>
      if b = 0 then (if a = 0 then nan else if 0 < a then inf else ninf)
      else fin (a / b)
  | fin _, inf => fin 0
  | fin _, ninf => fin 0
  | fin _, nan => nan
  | inf, fin b => if 0 ≤ b then inf else ninf
  | inf, inf => nan
  | inf, ninf => nan
  | inf, nan => nan
  | ninf, fin b => if 0 ≤ b then ninf else inf
  | ninf, inf => nan
  | ninf, ninf => nan
  | ninf, nan => nan
  | nan, _ => nan

/-- IEEE strict comparison; every comparison with `nan` is false. -/
def blt : Flt → Flt → Bool
  | fin a, fin b => decide (a < b)
  | fin _, inf => true
  | fin _, ninf => false
  | fin _, nan => false
  | inf, _ => false
  | ninf, fin _ => true
  | ninf, inf => true
  | ninf, ninf => false
  | ninf, nan => false
  | nan, _ => false

/-- IEEE non-strict comparison; every comparison with `nan` is false. -/
def ble : Flt → Flt → Bool
  | fin a, fin b => decide (a ≤ b)
  | fin _, inf => true
  | fin _, ninf => false
  | fin _, nan => false
  | inf, inf => true
  | inf, fin _ => false
  | inf, ninf => false
  | inf, nan => false
  | ninf, nan => false
  | ninf, _ => true
  | nan, _ => false

/-- IEEE equality test; `nan == x` is false for every `x`. -/
def beq : Flt → Flt → Bool
  | fin a, fin b => decide (a = b)
  | inf, inf => true
  | ninf, ninf => true
  | _, _ => false

/-- Test for `nan`. -/
def isNan : Flt → Bool
  | nan => true
  | _ => false

/-- Test for a finite value. -/
def isFin : Flt → Bool
  | fin _ => true
  | _ => false

/-- Test for a finite non-negative value. -/
def isNN : Flt → Bool
  | fin q => decide (0 ≤ q)
  | _ => false

/-- Rust `f32::min`: ignores a `nan` argument. -/
def fmin (x y : Flt) : Flt :=
  if x.isNan then y else if y.isNan then x else if ble x y then x else y

/-- Rust `f32::max`: ignores a `nan` argument. -/
def fmax (x y : Flt) : Flt :=
  if x.isNan then y else if y.isNan then x else if ble y x then x else y

/-- Rust `f32::clamp` on its non-panicking domain (`lo ≤ hi`); a `nan` input
is returned unchanged, as in Rust. -/
def clamp (x lo hi : Flt) : Flt :=
  if blt x lo then lo else if blt hi x then hi else x

/-- IEEE square root, modelled by `Rat.sqrt` on finite values (exact whenever
the argument is a perfect rational square). -/
def sqrt : Flt → Flt
  | fin q => if q < 0 then nan else fin (Rat.sqrt q)
  | inf => inf
  | ninf => nan
  | nan => nan

end Flt

/-- `Vec2` from `src/math/mod.rs`. -/
structure Vec2 where
  x : Flt
  y : Flt
deriving DecidableEq, Repr

namespace Vec2

/-- `Vec2::ZERO`. -/
def zero : Vec2 := ⟨Flt.fin 0, Flt.fin 0⟩

/-- `Vec2::X`. -/
def unitX : Vec2 := ⟨Flt.fin 1, Flt.fin 0⟩

/-- `impl Add for Vec2`. -/
def add (v r : Vec2) : Vec2 := ⟨Flt.add v.x r.x, Flt.add v.y r.y⟩

/-- `impl Sub for Vec2`. -/
def sub (v r : Vec2) : Vec2 := ⟨Flt.sub v.x r.x, Flt.sub v.y r.y⟩

/-- `impl Mul<f32> for Vec2`. -/
def mul (v : Vec2) (s : Flt) : Vec2 := ⟨Flt.mul v.x s, Flt.mul v.y s⟩

/-- `impl Div<f32> for Vec2`. -/
def div (v : Vec2) (s : Flt) : Vec2 := ⟨Flt.div v.x s, Flt.div v.y s⟩

/-- `Vec2::dot`. -/
def dot (v r : Vec2) : Flt := Flt.add (Flt.mul v.x r.x) (Flt.mul v.y r.y)

/-- `Vec2::cross` (2D scalar cross product). -/
def cross (v r : Vec2) : Flt := Flt.sub (Flt.mul v.x r.y) (Flt.mul v.y r.x)

/-- `Vec2::len2`. -/
def len2 (v : Vec2) : Flt := v.dot v

/-- `Vec2::len`. -/
def len (v : Vec2) : Flt := Flt.sqrt v.len2

/-- `Vec2::normalized`: `if l > 0.0 { self / l } else { ZERO }`. -/
def normalized (v : Vec2) : Vec2 :=
  if Flt.blt (Flt.fin 0) v.len then v.div v.len else Vec2.zero

end Vec2

/-- `cross_sv` from `src/math/mod.rs`: scalar x vector. -/
def cross_sv (s : Flt) (v : Vec2) : Vec2 :=
  ⟨Flt.mul (Flt.neg s) v.y, Flt.mul s v.x⟩

/-- `Shape` from `src/shape.rs`. -/
inductive Shape where
  | Circle (r : Flt)
  | Box (hx hy : Flt)
deriving DecidableEq, Repr

/-- `Material` from `src/body.rs`. -/
structure Material where
  restitution : Flt
  friction : Flt
deriving DecidableEq, Repr

/-- `impl Default for Material`: restitution 0.2, friction 0.6. -/
def Material.default : Material := ⟨Flt.fin (1/5), Flt.fin (3/5)⟩

/-- `Body` from `src/body.rs`. -/
structure Body where
  p : Vec2
  a : Flt
  v : Vec2
  w : Flt
  f : Vec2
  t : Flt
  m : Flt
  inv_m : Flt
  i : Flt
  inv_i : Flt
  material : Material
  shape : Shape
  is_static : Bool
deriving DecidableEq, Repr

namespace Body

/-- `Body::new_dynamic`. -/
def new_dynamic (shape : Shape) (mass : Flt) (position : Vec2) : Body :=
  let mp : Flt × Flt :=
    if Flt.blt (Flt.fin 0) mass then (mass, Flt.div (Flt.fin 1) mass)
    else (Flt.fin 0, Flt.fin 0)
  let ip : Flt × Flt :=
    match shape with
    | Shape.Circle r =>
        let i := Flt.mul (Flt.mul (Flt.mul (Flt.fin (1/2)) mp.1) r) r
        (i, if Flt.blt (Flt.fin 0) i then Flt.div (Flt.fin 1) i else Flt.fin 0)
    | Shape.Box hx hy =>
        let wd := Flt.mul (Flt.fin 2) hx
        let ht := Flt.mul (Flt.fin 2) hy
        let i := Flt.mul (Flt.mul (Flt.fin (1/12)) mp.1)
          (Flt.add (Flt.mul wd wd) (Flt.mul ht ht))
        (i, if Flt.blt (Flt.fin 0) i then Flt.div (Flt.fin 1) i else Flt.fin 0)
  { p := position, a := Flt.fin 0, v := Vec2.zero, w := Flt.fin 0,
    f := Vec2.zero, t := Flt.fin 0,
    m := mp.1, inv_m := mp.2, i := ip.1, inv_i := ip.2,
    material := Material.default, shape := shape, is_static := false }

/-- `Body::new_static`. -/
def new_static (shape : Shape) (position : Vec2) : Body :=
  { p := position, a := Flt.fin 0, v := Vec2.zero, w := Flt.fin 0,
    f := Vec2.zero, t := Flt.fin 0,
    m := Flt.fin 0, inv_m := Flt.fin 0, i := Flt.fin 0, inv_i := Flt.fin 0,
    material := Material.default, shape := shape, is_static := true }

/-- `Body::apply_force`: accumulate into the force accumulator. -/
def apply_force (b : Body) (force : Vec2) : Body :=
  { b with f := b.f.add force }

/-- Placeholder body used as the `getD` default for index lookups; the engine
only ever looks up in-range indices. -/
def dummy : Body := new_static (Shape.Circle (Flt.fin 0)) Vec2.zero

end Body

/-- `Contact` from `src/collision/mod.rs`. -/
structure Contact where
  point : Vec2
  normal : Vec2
  penetration : Flt
deriving DecidableEq, Repr

/-- `Manifold` from `src/collision/mod.rs`. -/
structure Manifold where
  a : ℕ
  b : ℕ
  contact : Contact
deriving DecidableEq, Repr

/-- `circle_circle` from `src/collision/circle_circle.rs`. -/
def circle_circle (a_id b_id : ℕ) (a b : Body) : Option Manifold :=
  match a.shape, b.shape with
  | Shape.Circle ra, Shape.Circle rb =>
      let ab := b.p.sub a.p
      let dist2 := ab.len2
      let r := Flt.add ra rb
      if Flt.ble (Flt.mul r r) dist2 then none
      else
        let dist := Flt.sqrt dist2
        let normal :=
          if Flt.blt (Flt.fin (1/100000)) dist then ab.div dist else Vec2.unitX
        let penetration := Flt.sub r dist
        let point := a.p.add (normal.mul ra)
        some { a := a_id, b := b_id,
               contact := { point := point, normal := normal, penetration := penetration } }
  | _, _ => none

/-- `World` from `src/world.rs`. -/
structure World where
  bodies : List Body
  gravity : Vec2
  iterations : ℕ
deriving Repr

/-- `impl Default for World`: empty body list, gravity (0, -9.81), 12 iterations. -/
def World.default : World :=
  { bodies := [], gravity := ⟨Flt.fin 0, Flt.fin (-981/100)⟩, iterations := 12 }

/-- Phase 1 of `World::step`, per body: skip if static or `inv_m == 0.0`,
otherwise semi-implicit Euler velocity update and accumulator reset. -/
def integrateForceBody (gravity : Vec2) (dt : Flt) (b : Body) : Body :=
  if b.is_static || Flt.beq b.inv_m (Flt.fin 0) then b
  else
    { b with
      v := b.v.add (((b.f.mul b.inv_m).add gravity).mul dt),
      w := Flt.add b.w (Flt.mul (Flt.mul b.t b.inv_i) dt),
      f := Vec2.zero,
      t := Flt.fin 0 }

/-- Phase 2 of `World::step`: broadphase over all pairs `i < j`, skipping
static-static pairs, with `circle_circle` as the narrowphase. -/
def gatherContacts (bodies : List Body) : List Manifold :=
  (List.range bodies.length).flatMap fun i =>
    (List.range' (i + 1) (bodies.length - (i + 1))).filterMap fun j =>
      if (bodies.getD i Body.dummy).is_static && (bodies.getD j Body.dummy).is_static
      then none
      else circle_circle i j (bodies.getD i Body.dummy) (bodies.getD j Body.dummy)

/-- `ra` in `World::solve_contact`: contact point relative to A's center. -/
def contactRa (a : Body) (c : Contact) : Vec2 := c.point.sub a.p

/-- `rb` in `World::solve_contact`: contact point relative to B's center. -/
def contactRb (b : Body) (c : Contact) : Vec2 := c.point.sub b.p

/-- `rv` in `World::solve_contact`: relative velocity at the contact point,
computed from the pre-impulse velocities. -/
def contactRv (a b : Body) (c : Contact) : Vec2 :=
  (b.v.add (cross_sv b.w (contactRb b c))).sub (a.v.add (cross_sv a.w (contactRa a c)))

/-- `vel_along_normal` in `World::solve_contact`. -/
def velAlongNormal (a b : Body) (c : Contact) : Flt :=
  (contactRv a b c).dot c.normal

/-- `e` in `World::solve_contact`: `a.restitution.min(b.restitution)`. -/
def restitutionMin (a b : Body) : Flt :=
  Flt.fmin a.material.restitution b.material.restitution

/-- `inv_mass_sum` in `World::solve_contact` (effective inverse mass along
the contact normal). -/
def invMassSumN (a b : Body) (c : Contact) : Flt :=
  Flt.add
    (Flt.add (Flt.add a.inv_m b.inv_m)
      (Flt.mul (Flt.mul ((contactRa a c).cross c.normal) ((contactRa a c).cross c.normal)) a.inv_i))
    (Flt.mul (Flt.mul ((contactRb b c).cross c.normal) ((contactRb b c).cross c.normal)) b.inv_i)

/-- `j` in `World::solve_contact`: `-(1.0 + e) * vel_along_normal / inv_mass_sum`. -/
def jScalar (a b : Body) (c : Contact) : Flt :=
  Flt.div
    (Flt.mul (Flt.neg (Flt.add (Flt.fin 1) (restitutionMin a b))) (velAlongNormal a b c))
    (invMassSumN a b c)

/-- `tangent` in `World::solve_contact`: `rv` with its normal component
removed, then normalized. -/
def tangentDir (a b : Body) (c : Contact) : Vec2 :=
  ((contactRv a b c).sub (c.normal.mul ((contactRv a b c).dot c.normal))).normalized

/-- `inv_mass_t` in `World::solve_contact` (effective inverse mass along the
tangent). -/
def invMassSumT (a b : Body) (c : Contact) : Flt :=
  Flt.add
    (Flt.add (Flt.add a.inv_m b.inv_m)
      (Flt.mul (Flt.mul ((contactRa a c).cross (tangentDir a b c)) ((contactRa a c).cross (tangentDir a b c))) a.inv_i))
    (Flt.mul (Flt.mul ((contactRb b c).cross (tangentDir a b c)) ((contactRb b c).cross (tangentDir a b c))) b.inv_i)

/-- `jt` in `World::solve_contact`: `-rv.dot(tangent) / inv_mass_t`. -/
def jtScalar (a b : Body) (c : Contact) : Flt :=
  Flt.div (Flt.neg ((contactRv a b c).dot (tangentDir a b c))) (invMassSumT a b c)

/-- `mu` in `World::solve_contact`: `(a.friction * b.friction).sqrt()`. -/
def muCoef (a b : Body) : Flt :=
  Flt.sqrt (Flt.mul a.material.friction b.material.friction)

/-- `jt_clamped` in `World::solve_contact`: `jt.clamp(-mu * j, mu * j)`. -/
def jtClamped (a b : Body) (c : Contact) : Flt :=
  Flt.clamp (jtScalar a b c)
    (Flt.mul (Flt.neg (muCoef a b)) (jScalar a b c))
    (Flt.mul (muCoef a b) (jScalar a b c))

/-- `World::solve_contact`, acting on the two bodies of the manifold.
Returns the updated pair `(A, B)`; early-outs return the inputs unchanged. -/
def solveContactPair (a b : Body) (c : Contact) : Body × Body :=
  if Flt.blt (Flt.fin 0) (velAlongNormal a b c) then (a, b)
  else if Flt.beq (invMassSumN a b c) (Flt.fin 0) then (a, b)
  else
    let impulse := c.normal.mul (jScalar a b c)
    let a1 := { a with
      v := a.v.sub (impulse.mul a.inv_m),
      w := Flt.sub a.w (Flt.mul a.inv_i ((contactRa a c).cross impulse)) }
    let b1 := { b with
      v := b.v.add (impulse.mul b.inv_m),
      w := Flt.add b.w (Flt.mul b.inv_i ((contactRb b c).cross impulse)) }
    if Flt.beq (invMassSumT a b c) (Flt.fin 0) then (a1, b1)
    else
      let fi := (tangentDir a b c).mul (jtClamped a b c)
      ({ a1 with
          v := a1.v.sub (fi.mul a.inv_m),
          w := Flt.sub a1.w (Flt.mul a.inv_i ((contactRa a c).cross fi)) },
       { b1 with
          v := b1.v.add (fi.mul b.inv_m),
          w := Flt.add b1.w (Flt.mul b.inv_i ((contactRb b c).cross fi)) })

/-- `World::solve_contact` at the world level: fetch the two bodies named by
the manifold (the `get2_mut` split), solve, and write both back. -/
def solveContactWorld (bodies : List Body) (mfd : Manifold) : List Body :=
  (bodies.set mfd.a
    (solveContactPair (bodies.getD mfd.a Body.dummy) (bodies.getD mfd.b Body.dummy) mfd.contact).1).set
    mfd.b
    (solveContactPair (bodies.getD mfd.a Body.dummy) (bodies.getD mfd.b Body.dummy) mfd.contact).2

/-- One pass of phase 3: solve every manifold once, in order. -/
def solvePass (contacts : List Manifold) (bodies : List Body) : List Body :=
  contacts.foldl solveContactWorld bodies

/-- Phase 3 of `World::step`: `iterations` passes over the manifold list. -/
def iterateSolve : ℕ → List Manifold → List Body → List Body
  | 0, _, bodies => bodies
  | n + 1, contacts, bodies => iterateSolve n contacts (solvePass contacts bodies)

/-- Phase 4 of `World::step`, per body: position integration, skipping static
bodies. -/
def integratePosBody (dt : Flt) (b : Body) : Body :=
  if b.is_static then b
  else { b with p := b.p.add (b.v.mul dt), a := Flt.add b.a (Flt.mul b.w dt) }

/-- `World::positional_correction`, acting on the two bodies of the manifold.
Note: the division by `a.inv_m + b.inv_m` is NOT guarded against zero. -/
def positionalCorrectionPair (a b : Body) (c : Contact) : Body × Body :=
  let percent := Flt.fin (4/5)
  let slop := Flt.fin (1/100)
  let correction_mag :=
    Flt.mul (Flt.div (Flt.fmax (Flt.sub c.penetration slop) (Flt.fin 0))
      (Flt.add a.inv_m b.inv_m)) percent
  let correction := c.normal.mul correction_mag
  let a' := if a.is_static then a else { a with p := a.p.sub (correction.mul a.inv_m) }
  let b' := if b.is_static then b else { b with p := b.p.add (correction.mul b.inv_m) }
  (a', b')

/-- `World::positional_correction` at the world level. -/
def positionalCorrectionWorld (bodies : List Body) (mfd : Manifold) : List Body :=
  (bodies.set mfd.a
    (positionalCorrectionPair (bodies.getD mfd.a Body.dummy) (bodies.getD mfd.b Body.dummy) mfd.contact).1).set
    mfd.b
    (positionalCorrectionPair (bodies.getD mfd.a Body.dummy) (bodies.getD mfd.b Body.dummy) mfd.contact).2

/-- `World::step`: the five-phase pipeline. -/
def World.step (w : World) (dt : Flt) : World :=
  let bodies1 := w.bodies.map (integrateForceBody w.gravity dt)
  let contacts := gatherContacts bodies1
  let bodies2 := iterateSolve w.iterations contacts bodies1
  let bodies3 := bodies2.map (integratePosBody dt)
  let bodies4 := contacts.foldl positionalCorrectionWorld bodies3
  { w with bodies := bodies4 }

/-- `World::add_body`. -/
def World.add_body (w : World) (body : Body) : World × ℕ :=
  ({ w with bodies := w.bodies ++ [body] }, w.bodies.length)

/-- Finiteness of both components of a vector. -/
def Vec2OKb (v : Vec2) : Bool := v.x.isFin && v.y.isFin

/-- Well-formed material: finite, non-negative restitution and friction. -/
def MaterialOKb (mat : Material) : Bool := mat.restitution.isNN && mat.friction.isNN

/-- Well-formed shape: finite dimensions. -/
def ShapeOKb : Shape → Bool
  | Shape.Circle r => r.isFin
  | Shape.Box hx hy => hx.isFin && hy.isFin

/-- Well-formed body: every numeric field finite, inverse mass and inverse
inertia non-negative, well-formed material and shape.  Every body constructed
through `Body::new_dynamic` / `Body::new_static` from finite inputs satisfies
this. -/
def BodyOKb (b : Body) : Bool :=
  Vec2OKb b.p && b.a.isFin && Vec2OKb b.v && b.w.isFin && Vec2OKb b.f && b.t.isFin &&
  b.m.isFin && b.inv_m.isNN && b.i.isFin && b.inv_i.isNN && MaterialOKb b.material &&
  ShapeOKb b.shape

/-- Well-formed contact data: finite point, normal and penetration. -/
def ContactOKb (c : Contact) : Bool :=
  Vec2OKb c.point && Vec2OKb c.normal && c.penetration.isFin

/-- Well-formed world: finite gravity and well-formed bodies. -/
def WorldOKb (w : World) : Bool := Vec2OKb w.gravity && w.bodies.all BodyOKb

/-- Agreement on every field except the linear and angular velocity. -/
def sameExceptVel (x y : Body) : Prop :=
  y.p = x.p ∧ y.a = x.a ∧ y.f = x.f ∧ y.t = x.t ∧ y.m = x.m ∧ y.inv_m = x.inv_m ∧
  y.i = x.i ∧ y.inv_i = x.inv_i ∧ y.material = x.material ∧ y.shape = x.shape ∧
  y.is_static = x.is_static

/-- Agreement on every field except the position. -/
def sameExceptPos (x y : Body) : Prop :=
  y.a = x.a ∧ y.v = x.v ∧ y.w = x.w ∧ y.f = x.f ∧ y.t = x.t ∧ y.m = x.m ∧
  y.inv_m = x.inv_m ∧ y.i = x.i ∧ y.inv_i = x.inv_i ∧ y.material = x.material ∧
  y.shape = x.shape ∧ y.is_static = x.is_static

/-- Degenerate dynamic body: `Body::new_dynamic` with mass 0 (allowed by the
constructor), giving `inv_m = 0` but `is_static = false`; unit circle at the
origin. -/
def degA : Body :=
  Body.new_dynamic (Shape.Circle (Flt.fin 1)) (Flt.fin 0) ⟨Flt.fin 0, Flt.fin 0⟩

/-- Second degenerate dynamic body, unit circle at (1, 0): overlaps `degA`. -/
def degB : Body :=
  Body.new_dynamic (Shape.Circle (Flt.fin 1)) (Flt.fin 0) ⟨Flt.fin 1, Flt.fin 0⟩

/-- The contact that `circle_circle` produces for `degA` / `degB`. -/
def degContact : Contact :=
  ⟨⟨Flt.fin 1, Flt.fin 0⟩, ⟨Flt.fin 1, Flt.fin 0⟩, Flt.fin 1⟩

/-- World holding the two overlapping degenerate bodies. -/
def degWorld : World :=
  { bodies := [degA, degB], gravity := ⟨Flt.fin 0, Flt.fin (-981/100)⟩, iterations := 1 }

/-- A static box with a force accumulated via `apply_force` before the step. -/
def statForced : Body :=
  (Body.new_static (Shape.Box (Flt.fin 20) (Flt.fin 1)) ⟨Flt.fin 0, Flt.fin (-1)⟩).apply_force
    ⟨Flt.fin 1, Flt.fin 0⟩

/-- World holding only `statForced`. -/
def statWorld : World :=
  { bodies := [statForced], gravity := ⟨Flt.fin 0, Flt.fin (-981/100)⟩, iterations := 12 }

/-- Ordinary dynamic unit circle of mass 1 at the origin. -/
def ballA : Body :=
  Body.new_dynamic (Shape.Circle (Flt.fin 1)) (Flt.fin 1) ⟨Flt.fin 0, Flt.fin 0⟩

/-- Ordinary dynamic unit circle of mass 1 at (3/2, 0): overlaps `ballA`. -/
def ballB : Body :=
  Body.new_dynamic (Shape.Circle (Flt.fin 1)) (Flt.fin 1) ⟨Flt.fin (3/2), Flt.fin 0⟩

/-- `ballB` moving away from `ballA` (separating contact). -/
def ballBsep : Body := { ballB with v := ⟨Flt.fin 1, Flt.fin 0⟩ }

/-- The contact between `ballA` and `ballB` (normal (1,0), penetration 1/2). -/
def ballContact : Contact :=
  ⟨⟨Flt.fin 1, Flt.fin 0⟩, ⟨Flt.fin 1, Flt.fin 0⟩, Flt.fin (1/2)⟩

/-- Manifold naming bodies 0 and 1 with `ballContact`. -/
def ballManifold : Manifold := ⟨0, 1, ballContact⟩

/-- World with a dynamic body that has a force accumulated before the step. -/
def dynForcedWorld : World :=
  { bodies := [ballA.apply_force ⟨Flt.fin 1, Flt.fin 0⟩],
    gravity := ⟨Flt.fin 0, Flt.fin (-981/100)⟩, iterations := 12 }

/-- World with one static body next to a dynamic one (for the amended C1
statement's witness). -/
def statDynWorld : World :=
  { bodies := [Body.new_static (Shape.Circle (Flt.fin 1)) ⟨Flt.fin 0, Flt.fin 0⟩, ballB],
    gravity := ⟨Flt.fin 0, Flt.fin (-981/100)⟩, iterations := 2 }

/-- `ballA` moving toward `ballB` (approaching contact). -/
def ballAmov : Body := { ballA with v := ⟨Flt.fin 1, Flt.fin 0⟩ }

/-- Unit circle at the origin moving diagonally, friction 1, restitution 0:
its contact with `fricB` exercises the friction branch of `solve_contact`. -/
def fricA : Body :=
  { Body.new_dynamic (Shape.Circle (Flt.fin 1)) (Flt.fin 1) ⟨Flt.fin 0, Flt.fin 0⟩ with
    v := ⟨Flt.fin 1, Flt.fin 1⟩, material := ⟨Flt.fin 0, Flt.fin 1⟩ }

/-- Resting unit circle at (1, 0), friction 1, restitution 0. -/
def fricB : Body :=
  { Body.new_dynamic (Shape.Circle (Flt.fin 1)) (Flt.fin 1) ⟨Flt.fin 1, Flt.fin 0⟩ with
    material := ⟨Flt.fin 0, Flt.fin 1⟩ }

/-- Head-on scenario, body A: dynamic circle of radius `rA`, mass `mq`, at
the origin, moving right with speed `s`, restitution 1, friction 0. -/
def headOnA (rA mq s : ℚ) : Body :=
  { Body.new_dynamic (Shape.Circle (Flt.fin rA)) (Flt.fin mq) ⟨Flt.fin 0, Flt.fin 0⟩ with
    v := ⟨Flt.fin s, Flt.fin 0⟩, material := ⟨Flt.fin 1, Flt.fin 0⟩ }

/-- Head-on scenario, body B: dynamic circle of radius `rB`, mass `mq`, at
`(d, 0)`, moving left with speed `s`, restitution 1, friction 0. -/
def headOnB (rB mq s d : ℚ) : Body :=
  { Body.new_dynamic (Shape.Circle (Flt.fin rB)) (Flt.fin mq) ⟨Flt.fin d, Flt.fin 0⟩ with
    v := ⟨Flt.fin (-s), Flt.fin 0⟩, material := ⟨Flt.fin 1, Flt.fin 0⟩ }

/-- The contact `circle_circle` produces for the head-on scenario. -/
def headOnContact (rA rB d : ℚ) : Contact :=
  ⟨⟨Flt.fin rA, Flt.fin 0⟩, ⟨Flt.fin 1, Flt.fin 0⟩, Flt.fin (rA + rB - d)⟩

/-- Dynamic circle of radius 3 and mass 1 at the origin. -/
def circleA3 : Body :=
  Body.new_dynamic (Shape.Circle (Flt.fin 3)) (Flt.fin 1) ⟨Flt.fin 0, Flt.fin 0⟩

/-- Dynamic circle of radius 3 and mass 1 at (3, 4): center distance 5 from
`circleA3`, so the pair overlaps with penetration 1. -/
def circleB3 : Body :=
  Body.new_dynamic (Shape.Circle (Flt.fin 3)) (Flt.fin 1) ⟨Flt.fin 3, Flt.fin 4⟩

/-- Dynamic unit circle at (3, 0): does not overlap `ballA`. -/
def circleFar : Body :=
  Body.new_dynamic (Shape.Circle (Flt.fin 1)) (Flt.fin 1) ⟨Flt.fin 3, Flt.fin 0⟩

/-- Static box body. -/
def boxBody : Body :=
  Body.new_static (Shape.Box (Flt.fin 20) (Flt.fin 1)) ⟨Flt.fin 0, Flt.fin 0⟩

namespace Flt

@[simp] theorem add_fin (a b : ℚ) : add (fin a) (fin b) = fin (a + b) := rfl

@[simp] theorem neg_fin (a : ℚ) : neg (fin a) = fin (-a) := rfl

@[simp] theorem sub_fin (a b : ℚ) : sub (fin a) (fin b) = fin (a - b) := by
  simp [Flt.sub, sub_eq_add_neg]

@[simp] theorem mul_fin (a b : ℚ) : mul (fin a) (fin b) = fin (a * b) := rfl

theorem div_fin (a b : ℚ) (h : b ≠ 0) : div (fin a) (fin b) = fin (a / b) := by
  simp [Flt.div, h]

@[simp] theorem blt_fin (a b : ℚ) : blt (fin a) (fin b) = decide (a < b) := rfl

@[simp] theorem ble_fin (a b : ℚ) : ble (fin a) (fin b) = decide (a ≤ b) := rfl

@[simp] theorem beq_fin (a b : ℚ) : beq (fin a) (fin b) = decide (a = b) := rfl

theorem sqrt_fin (q : ℚ) (h : 0 ≤ q) : sqrt (fin q) = fin (Rat.sqrt q) := by
  simp [Flt.sqrt, not_lt.mpr h]

@[simp] theorem fmin_fin (a b : ℚ) :
    fmin (fin a) (fin b) = fin (min a b) := by
  by_cases h : a ≤ b
  · simp [fmin, isNan, h, min_eq_left h]
  · simp [fmin, isNan, h, min_eq_right (le_of_not_le h)]

@[simp] theorem fmax_fin (a b : ℚ) :
    fmax (fin a) (fin b) = fin (max a b) := by
  by_cases h : b ≤ a
  · simp [fmax, isNan, h, max_eq_left h]
  · simp [fmax, isNan, h, max_eq_right (le_of_not_le h)]

theorem isFin_iff (x : Flt) : x.isFin = true ↔ ∃ q, x = fin q := by
  cases x <;> simp [isFin]

theorem isNN_iff (x : Flt) : x.isNN = true ↔ ∃ q, x = fin q ∧ 0 ≤ q := by
  cases x <;> simp [isNN]

@[simp] theorem isFin_fin (q : ℚ) : (fin q).isFin = true := rfl

@[simp] theorem isNan_fin (q : ℚ) : (fin q).isNan = false := rfl

/-- `x - 0 = x` holds for every float, special values included. -/
@[simp] theorem sub_fin_zero (x : Flt) : sub x (fin 0) = x := by
  cases x <;> simp [Flt.sub, Flt.neg, Flt.add]

/-- A finite float times the finite zero is the finite zero. -/
theorem mul_fin_zero (x : Flt) (h : x.isFin = true) : mul x (fin 0) = fin 0 := by
  obtain ⟨q, rfl⟩ := (isFin_iff x).1 h
  simp

/-- The clamp of finite values is one of the three finite inputs. -/
theorem clamp_fin_isFin (x lo hi : Flt) (hx : x.isFin = true) (hlo : lo.isFin = true)
    (hhi : hi.isFin = true) : (clamp x lo hi).isFin = true := by
  unfold clamp
  split
  · exact hlo
  · split
    · exact hhi
    · exact hx

end Flt

/-- `Rat.sqrt` of a non-negative rational is non-negative (used for the
finiteness of `mu` and of vector lengths). -/
theorem ratSqrt_nonneg (q : ℚ) : 0 ≤ Rat.sqrt q := Rat.sqrt_nonneg q

/-- `Rat.sqrt` is exact on perfect rational squares. -/
theorem ratSqrt_mul_self (s : ℚ) (hs : 0 ≤ s) : Rat.sqrt (s * s) = s := by
  rw [Rat.sqrt_eq, abs_of_nonneg hs]

namespace ListLemmas

theorem getD_set_self {α : Type} (l : List α) (i : ℕ) (x d : α) (h : i < l.length) :
    (l.set i x).getD i d = x := by
  induction l generalizing i with
  | nil => simp at h
  | cons hd tl ih =>
      cases i with
      | zero => rfl
      | succ n =>
          simp only [List.set, List.getD, List.get?]
          exact ih n (by simpa using h)

theorem getD_set_ne {α : Type} (l : List α) (i j : ℕ) (x d : α) (h : i ≠ j) :
    (l.set i x).getD j d = l.getD j d := by
  induction l generalizing i j with
  | nil => simp [List.set]
  | cons hd tl ih =>
      cases i with
      | zero =>
          cases j with
          | zero => exact absurd rfl h
          | succ n => rfl
      | succ n =>
          cases j with
          | zero => rfl
          | succ k =>
              simp only [List.set, List.getD, List.get?]
              exact ih n k (by omega)

theorem set_getD_self {α : Type} (l : List α) (i : ℕ) (d : α) :
    l.set i (l.getD i d) = l := by
  induction l generalizing i with
  | nil => simp
  | cons hd tl ih =>
      cases i with
      | zero => rfl
      | succ n => simpa [List.set] using ih n

theorem getD_map {α β : Type} (l : List α) (ff : α → β) (k : ℕ) (d : β) (d0 : α)
    (h : k < l.length) : (l.map ff).getD k d = ff (l.getD k d0) := by
  induction l generalizing k with
  | nil => simp at h
  | cons hd tl ih =>
      cases k with
      | zero => rfl
      | succ n =>
          simp only [List.map, List.getD, List.get?]
          exact ih n (by simpa using h)

theorem getD_eq_default {α : Type} (l : List α) (k : ℕ) (d : α) (h : l.length ≤ k) :
    l.getD k d = d := by
  induction l generalizing k with
  | nil => cases k <;> rfl
  | cons hd tl ih =>
      cases k with
      | zero => simp at h
      | succ n => exact ih n (by simpa using h)

end ListLemmas

theorem sameExceptVel_refl (x : Body) : sameExceptVel x x :=
  ⟨rfl, rfl, rfl, rfl, rfl, rfl, rfl, rfl, rfl, rfl, rfl⟩

theorem sameExceptVel_trans {x y z : Body} (h1 : sameExceptVel x y)
    (h2 : sameExceptVel y z) : sameExceptVel x z := by
  obtain ⟨a1, a2, a3, a4, a5, a6, a7, a8, a9, a10, a11⟩ := h1
  obtain ⟨b1, b2, b3, b4, b5, b6, b7, b8, b9, b10, b11⟩ := h2
  exact ⟨b1.trans a1, b2.trans a2, b3.trans a3, b4.trans a4, b5.trans a5, b6.trans a6,
    b7.trans a7, b8.trans a8, b9.trans a9, b10.trans a10, b11.trans a11⟩

/-- `solve_contact` touches nothing of either body but `v` and `w`. -/
theorem solvePair_frame (a b : Body) (c : Contact) :
    sameExceptVel a (solveContactPair a b c).1 ∧
    sameExceptVel b (solveContactPair a b c).2 := by
  unfold solveContactPair
  split
  · exact ⟨sameExceptVel_refl a, sameExceptVel_refl b⟩
  · split
    · exact ⟨sameExceptVel_refl a, sameExceptVel_refl b⟩
    · split
      · exact ⟨⟨rfl, rfl, rfl, rfl, rfl, rfl, rfl, rfl, rfl, rfl, rfl⟩,
               ⟨rfl, rfl, rfl, rfl, rfl, rfl, rfl, rfl, rfl, rfl, rfl⟩⟩
      · exact ⟨⟨rfl, rfl, rfl, rfl, rfl, rfl, rfl, rfl, rfl, rfl, rfl⟩,
               ⟨rfl, rfl, rfl, rfl, rfl, rfl, rfl, rfl, rfl, rfl, rfl⟩⟩

/-- `solve_contact` early-out: separating bodies are returned unchanged. -/
theorem solvePair_separating (a b : Body) (c : Contact)
    (h : Flt.blt (Flt.fin 0) (velAlongNormal a b c) = true) :
    solveContactPair a b c = (a, b) := by
  unfold solveContactPair
  rw [if_pos h]

/-- World-level `solve_contact` leaves every body index intact up to `v`/`w`. -/
theorem solveWorld_frame (bodies : List Body) (mfd : Manifold) (k : ℕ) :
    sameExceptVel (bodies.getD k Body.dummy)
      ((solveContactWorld bodies mfd).getD k Body.dummy) := by
  unfold solveContactWorld
  by_cases hlen : k < bodies.length
  · by_cases hb : k = mfd.b
    · rw [← hb, ListLemmas.getD_set_self _ _ _ _ (by simpa using hlen)]
      exact (solvePair_frame _ _ _).2
    · rw [ListLemmas.getD_set_ne _ _ _ _ _ (fun hh => hb hh.symm)]
      by_cases ha : k = mfd.a
      · rw [← ha, ListLemmas.getD_set_self _ _ _ _ hlen]
        exact (solvePair_frame _ _ _).1
      · rw [ListLemmas.getD_set_ne _ _ _ _ _ (fun hh => ha hh.symm)]
        exact sameExceptVel_refl _
  · rw [ListLemmas.getD_eq_default bodies k Body.dummy (by omega),
      ListLemmas.getD_eq_default _ k Body.dummy]
    · exact sameExceptVel_refl _
    · simp only [List.length_set]
      omega

theorem length_solveContactWorld (bodies : List Body) (mfd : Manifold) :
    (solveContactWorld bodies mfd).length = bodies.length := by
  unfold solveContactWorld
  simp

theorem length_solvePass (contacts : List Manifold) (bodies : List Body) :
    (solvePass contacts bodies).length = bodies.length := by
  induction contacts generalizing bodies with
  | nil => rfl
  | cons hd tl ih =>
      unfold solvePass at ih ⊢
      simp only [List.foldl]
      rw [ih, length_solveContactWorld]

theorem length_iterateSolve (n : ℕ) (contacts : List Manifold) (bodies : List Body) :
    (iterateSolve n contacts bodies).length = bodies.length := by
  induction n generalizing bodies with
  | zero => rfl
  | succ k ih =>
      unfold iterateSolve
      rw [ih, length_solvePass]

theorem solvePass_frame (contacts : List Manifold) (bodies : List Body) (k : ℕ) :
    sameExceptVel (bodies.getD k Body.dummy)
      ((solvePass contacts bodies).getD k Body.dummy) := by
  induction contacts generalizing bodies with
  | nil => exact sameExceptVel_refl _
  | cons hd tl ih =>
      unfold solvePass
      simp only [List.foldl]
      exact sameExceptVel_trans (solveWorld_frame bodies hd k) (ih _)

theorem iterateSolve_frame (n : ℕ) (contacts : List Manifold) (bodies : List Body) (k : ℕ) :
    sameExceptVel (bodies.getD k Body.dummy)
      ((iterateSolve n contacts bodies).getD k Body.dummy) := by
  induction n generalizing bodies with
  | zero => exact sameExceptVel_refl _
  | succ j ih =>
      unfold iterateSolve
      exact sameExceptVel_trans (solvePass_frame contacts bodies k) (ih _)

theorem iterateSolve_nil (n : ℕ) (bodies : List Body) :
    iterateSolve n [] bodies = bodies := by
  induction n with
  | zero => rfl
  | succ k ih => simpa [iterateSolve, solvePass] using ih

theorem sameExceptPos_refl (x : Body) : sameExceptPos x x :=
  ⟨rfl, rfl, rfl, rfl, rfl, rfl, rfl, rfl, rfl, rfl, rfl, rfl⟩

theorem sameExceptPos_trans {x y z : Body} (h1 : sameExceptPos x y)
    (h2 : sameExceptPos y z) : sameExceptPos x z := by
  obtain ⟨a1, a2, a3, a4, a5, a6, a7, a8, a9, a10, a11, a12⟩ := h1
  obtain ⟨b1, b2, b3, b4, b5, b6, b7, b8, b9, b10, b11, b12⟩ := h2
  exact ⟨b1.trans a1, b2.trans a2, b3.trans a3, b4.trans a4, b5.trans a5, b6.trans a6,
    b7.trans a7, b8.trans a8, b9.trans a9, b10.trans a10, b11.trans a11, b12.trans a12⟩

/-- Positional correction touches nothing of either body but `p`. -/
theorem pcPair_frame (a b : Body) (c : Contact) :
    sameExceptPos a (positionalCorrectionPair a b c).1 ∧
    sameExceptPos b (positionalCorrectionPair a b c).2 := by
  simp only [positionalCorrectionPair]
  constructor
  · split
    · exact sameExceptPos_refl a
    · exact ⟨rfl, rfl, rfl, rfl, rfl, rfl, rfl, rfl, rfl, rfl, rfl, rfl⟩
  · split
    · exact sameExceptPos_refl b
    · exact ⟨rfl, rfl, rfl, rfl, rfl, rfl, rfl, rfl, rfl, rfl, rfl, rfl⟩

/-- Positional correction never moves a static body. -/
theorem pcPair_static (a b : Body) (c : Contact) :
    (a.is_static = true → (positionalCorrectionPair a b c).1 = a) ∧
    (b.is_static = true → (positionalCorrectionPair a b c).2 = b) := by
  simp only [positionalCorrectionPair]
  constructor
  · intro h
    simp [h]
  · intro h
    simp [h]

theorem length_pcWorld (bodies : List Body) (mfd : Manifold) :
    (positionalCorrectionWorld bodies mfd).length = bodies.length := by
  unfold positionalCorrectionWorld
  simp

theorem pcWorld_frame (bodies : List Body) (mfd : Manifold) (k : ℕ) :
    sameExceptPos (bodies.getD k Body.dummy)
      ((positionalCorrectionWorld bodies mfd).getD k Body.dummy) := by
  unfold positionalCorrectionWorld
  by_cases hlen : k < bodies.length
  · by_cases hb : k = mfd.b
    · rw [← hb, ListLemmas.getD_set_self _ _ _ _ (by simpa using hlen)]
      exact (pcPair_frame _ _ _).2
    · rw [ListLemmas.getD_set_ne _ _ _ _ _ (fun hh => hb hh.symm)]
      by_cases ha : k = mfd.a
      · rw [← ha, ListLemmas.getD_set_self _ _ _ _ hlen]
        exact (pcPair_frame _ _ _).1
      · rw [ListLemmas.getD_set_ne _ _ _ _ _ (fun hh => ha hh.symm)]
        exact sameExceptPos_refl _
  · rw [ListLemmas.getD_eq_default bodies k Body.dummy (by omega),
      ListLemmas.getD_eq_default _ k Body.dummy]
    · exact sameExceptPos_refl _
    · simp only [List.length_set]
      omega

theorem pcFold_frame (contacts : List Manifold) (bodies : List Body) (k : ℕ) :
    sameExceptPos (bodies.getD k Body.dummy)
      ((contacts.foldl positionalCorrectionWorld bodies).getD k Body.dummy) := by
  induction contacts generalizing bodies with
  | nil => exact sameExceptPos_refl _
  | cons hd tl ih =>
      simp only [List.foldl]
      exact sameExceptPos_trans (pcWorld_frame bodies hd k) (ih _)

theorem length_pcFold (contacts : List Manifold) (bodies : List Body) :
    (contacts.foldl positionalCorrectionWorld bodies).length = bodies.length := by
  induction contacts generalizing bodies with
  | nil => rfl
  | cons hd tl ih =>
      simp only [List.foldl]
      rw [ih, length_pcWorld]

/-- Position integration touches nothing but `p` and the angle `a`. -/
theorem integratePos_fields (dt : Flt) (b : Body) :
    (integratePosBody dt b).v = b.v ∧ (integratePosBody dt b).w = b.w ∧
    (integratePosBody dt b).f = b.f ∧ (integratePosBody dt b).t = b.t ∧
    (integratePosBody dt b).is_static = b.is_static ∧
    (integratePosBody dt b).inv_m = b.inv_m := by
  unfold integratePosBody
  split <;> exact ⟨rfl, rfl, rfl, rfl, rfl, rfl⟩

/-- Position integration is the identity on static bodies. -/
theorem integratePos_static (dt : Flt) (b : Body) (h : b.is_static = true) :
    integratePosBody dt b = b := by
  unfold integratePosBody
  rw [if_pos h]

/-- Force integration is the identity on static bodies, whatever their mass
fields hold. -/
theorem integrateForce_static (g : Vec2) (dt : Flt) (b : Body) (h : b.is_static = true) :
    integrateForceBody g dt b = b := by
  unfold integrateForceBody
  rw [h]
  simp

/-- Force integration is the identity on zero-inverse-mass bodies. -/
theorem integrateForce_zero_inv_m (g : Vec2) (dt : Flt) (b : Body)
    (h : b.inv_m = Flt.fin 0) : integrateForceBody g dt b = b := by
  unfold integrateForceBody
  rw [h]
  simp


/-- C8: a body built by `Body::new_static` has `inv_m = 0`, `inv_i = 0` and
`is_static = true`, and the force-integration and position-integration phases
of `step` leave such a body entirely unchanged — velocity, angular velocity,
position and angle included — even if a caller overwrites its `m` field with
an arbitrary value afterwards. -/
theorem c8_static_body_integration_immune (shape : Shape) (pos : Vec2) (mval : Flt)
    (gravity : Vec2) (dt : Flt) :
    (Body.new_static shape pos).inv_m = Flt.fin 0 ∧
    (Body.new_static shape pos).inv_i = Flt.fin 0 ∧
    (Body.new_static shape pos).is_static = true ∧
    integrateForceBody gravity dt { Body.new_static shape pos with m := mval } =
      { Body.new_static shape pos with m := mval } ∧
    integratePosBody dt { Body.new_static shape pos with m := mval } =
      { Body.new_static shape pos with m := mval } :=
  ⟨rfl, rfl, rfl, integrateForce_static _ _ _ rfl, integratePos_static _ _ rfl⟩

/-- C2 is violated by the code: for two overlapping non-static bodies with
zero inverse mass (constructed with `Body::new_dynamic` and mass 0, so the
configuration is reachable through the public API), `positional_correction`
divides by `A.inv_m + B.inv_m = 0`, producing an infinite correction, and
writes a NaN position into the non-static body: the position IS changed, and
non-finite values ARE produced.  The contact itself is produced by
`circle_circle` during the step, so the phase really runs on it. -/
theorem c2_positional_correction_division_unguarded :
    Flt.add degA.inv_m degB.inv_m = Flt.fin 0 ∧
    degA.is_static = false ∧
    circle_circle 0 1 degA degB = some ⟨0, 1, degContact⟩ ∧
    (positionalCorrectionPair degA degB degContact).1.p = ⟨Flt.nan, Flt.nan⟩ ∧
    (positionalCorrectionPair degA degB degContact).1.p ≠ degA.p := by
  refine ⟨?_, ?_, ?_, ?_, ?_⟩
  · norm_num [degA, degB, Body.new_dynamic]
  · norm_num [degA, Body.new_dynamic]
  · norm_num [degA, degB, degContact, Body.new_dynamic, circle_circle, Vec2.sub, Vec2.len2,
      Vec2.dot, Vec2.add, Vec2.mul, Vec2.div, Vec2.unitX, Vec2.zero, Flt.sqrt, Flt.div,
      Material.default, Nat.sqrt_one]
  · norm_num [degA, degB, degContact, Body.new_dynamic, positionalCorrectionPair, Vec2.sub,
      Vec2.add, Vec2.mul, Flt.div, Flt.mul, Vec2.zero, Material.default, Flt.add, Flt.sub,
      Flt.neg, Flt.fmax, Flt.isNan, Flt.ble]
  · norm_num [degA, degB, degContact, Body.new_dynamic, positionalCorrectionPair, Vec2.sub,
      Vec2.add, Vec2.mul, Flt.div, Flt.mul, Vec2.zero, Material.default, Flt.add, Flt.sub,
      Flt.neg, Flt.fmax, Flt.isNan, Flt.ble]
    exact fun h => Flt.noConfusion h

/-- C3 is violated by the code: a static body with a force accumulated via
`apply_force` still carries that force after a full `step`, because the
accumulator reset sits after the `is_static || inv_m == 0` skip. -/
theorem c3_counterexample_static_force_kept :
    ((statWorld.step (Flt.fin (1/60))).bodies.getD 0 Body.dummy).f = ⟨Flt.fin 1, Flt.fin 0⟩ ∧
    (⟨Flt.fin 1, Flt.fin 0⟩ : Vec2) ≠ Vec2.zero := by
  constructor
  · simp only [World.step, statWorld, List.map_cons, List.map_nil]
    rw [integrateForce_static _ _ _ rfl]
    have hg : gatherContacts [statForced] = [] := by
      simp [gatherContacts, List.range_succ]
    rw [hg, iterateSolve_nil]
    simp only [List.map_cons, List.map_nil]
    rw [integratePos_static _ _ rfl]
    simp only [List.foldl_nil]
    norm_num [statForced, Body.apply_force, Body.new_static, Vec2.add, Vec2.zero]
  · intro h
    have hx := congrArg Vec2.x h
    simp only [Vec2.zero] at hx
    exact absurd (Flt.fin.inj hx) (by norm_num)

/-- C3 (amended): after `step` returns, the force and torque accumulators of
every non-static body with nonzero inverse mass are zero; bodies skipped by
force integration (static, or zero inverse mass) retain their accumulators. -/
theorem c3_amended_accumulators_cleared (w : World) (dt : Flt) (k : ℕ)
    (hk : k < w.bodies.length)
    (hstat : (w.bodies.getD k Body.dummy).is_static = false)
    (hm : Flt.beq (w.bodies.getD k Body.dummy).inv_m (Flt.fin 0) = false) :
    ((w.step dt).bodies.getD k Body.dummy).f = Vec2.zero ∧
    ((w.step dt).bodies.getD k Body.dummy).t = Flt.fin 0 := by
  simp only [World.step]
  have hk1 : k < (w.bodies.map (integrateForceBody w.gravity dt)).length := by
    simpa using hk
  have h1 : (w.bodies.map (integrateForceBody w.gravity dt)).getD k Body.dummy
      = integrateForceBody w.gravity dt (w.bodies.getD k Body.dummy) :=
    ListLemmas.getD_map _ _ _ _ Body.dummy hk
  have hf1 : ((w.bodies.map (integrateForceBody w.gravity dt)).getD k Body.dummy).f = Vec2.zero ∧
      ((w.bodies.map (integrateForceBody w.gravity dt)).getD k Body.dummy).t = Flt.fin 0 := by
    rw [h1]
    unfold integrateForceBody
    rw [hstat, hm]
    simp
  obtain ⟨-, -, hf2, ht2, -, -, -, -, -, -, -⟩ :=
    iterateSolve_frame w.iterations (gatherContacts (w.bodies.map (integrateForceBody w.gravity dt)))
      (w.bodies.map (integrateForceBody w.gravity dt)) k
  have hk2 : k < (iterateSolve w.iterations
      (gatherContacts (w.bodies.map (integrateForceBody w.gravity dt)))
      (w.bodies.map (integrateForceBody w.gravity dt))).length := by
    rw [length_iterateSolve]
    exact hk1
  have h3 : ((iterateSolve w.iterations
      (gatherContacts (w.bodies.map (integrateForceBody w.gravity dt)))
      (w.bodies.map (integrateForceBody w.gravity dt))).map (integratePosBody dt)).getD k Body.dummy
      = integratePosBody dt ((iterateSolve w.iterations
      (gatherContacts (w.bodies.map (integrateForceBody w.gravity dt)))
      (w.bodies.map (integrateForceBody w.gravity dt))).getD k Body.dummy) :=
    ListLemmas.getD_map _ _ _ _ Body.dummy hk2
  obtain ⟨-, -, -, hf4, ht4, -, -, -, -, -, -, -⟩ :=
    pcFold_frame (gatherContacts (w.bodies.map (integrateForceBody w.gravity dt)))
      ((iterateSolve w.iterations
        (gatherContacts (w.bodies.map (integrateForceBody w.gravity dt)))
        (w.bodies.map (integrateForceBody w.gravity dt))).map (integratePosBody dt)) k
  constructor
  · rw [hf4, h3, (integratePos_fields dt _).2.2.1, hf2]
    exact hf1.1
  · rw [ht4, h3, (integratePos_fields dt _).2.2.2.1, ht2]
    exact hf1.2

/-- C3 witness: a dynamic body of mass 1 with a force applied has zero
accumulators after the step. -/
theorem c3_witness_dynamic_cleared :
    ((dynForcedWorld.step (Flt.fin (1/60))).bodies.getD 0 Body.dummy).f = Vec2.zero ∧
    ((dynForcedWorld.step (Flt.fin (1/60))).bodies.getD 0 Body.dummy).t = Flt.fin 0 :=
  c3_amended_accumulators_cleared dynForcedWorld (Flt.fin (1/60)) 0
    (by norm_num [dynForcedWorld])
    (by norm_num [dynForcedWorld, ballA, Body.new_dynamic, Body.apply_force])
    (by norm_num [dynForcedWorld, ballA, Body.new_dynamic, Body.apply_force, Flt.div, Flt.blt,
      Flt.beq])

/-- C6: `solve_contact` mutates only the linear and angular velocities of the
two bodies named by the manifold — their positions, angles, mass properties,
materials, shapes, accumulators and every other body are untouched — and when
the relative velocity along the normal is strictly positive (separating
bodies) it changes nothing at all. -/
theorem c6_solve_contact_mutates_only_velocities (bodies : List Body) (mfd : Manifold)
    (a b : Body) (c : Contact) :
    (∀ k, k ≠ mfd.a → k ≠ mfd.b →
      (solveContactWorld bodies mfd).getD k Body.dummy = bodies.getD k Body.dummy) ∧
    sameExceptVel a (solveContactPair a b c).1 ∧
    sameExceptVel b (solveContactPair a b c).2 ∧
    (Flt.blt (Flt.fin 0) (velAlongNormal a b c) = true → solveContactPair a b c = (a, b)) ∧
    (Flt.blt (Flt.fin 0) (velAlongNormal (bodies.getD mfd.a Body.dummy)
        (bodies.getD mfd.b Body.dummy) mfd.contact) = true →
      solveContactWorld bodies mfd = bodies) := by
  refine ⟨?_, (solvePair_frame a b c).1, (solvePair_frame a b c).2,
    solvePair_separating a b c, ?_⟩
  · intro k hka hkb
    unfold solveContactWorld
    rw [ListLemmas.getD_set_ne _ _ _ _ _ (fun hh => hkb hh.symm),
      ListLemmas.getD_set_ne _ _ _ _ _ (fun hh => hka hh.symm)]
  · intro h
    unfold solveContactWorld
    rw [solvePair_separating _ _ _ h]
    rw [ListLemmas.set_getD_self bodies mfd.a Body.dummy,
      ListLemmas.set_getD_self bodies mfd.b Body.dummy]

/-- C6 witness: concrete separating contact between two unit circles; the
solver leaves the body list unchanged, and an unrelated index is untouched. -/
theorem c6_witness_concrete :
    (solveContactWorld [ballA, ballBsep] ballManifold).getD 2 Body.dummy
      = [ballA, ballBsep].getD 2 Body.dummy ∧
    sameExceptVel ballA (solveContactPair ballA ballBsep ballContact).1 ∧
    solveContactWorld [ballA, ballBsep] ballManifold = [ballA, ballBsep] :=
  ⟨(c6_solve_contact_mutates_only_velocities [ballA, ballBsep] ballManifold ballA ballBsep
      ballContact).1 2 (by norm_num [ballManifold]) (by norm_num [ballManifold]),
   (c6_solve_contact_mutates_only_velocities [ballA, ballBsep] ballManifold ballA ballBsep
      ballContact).2.1,
   (c6_solve_contact_mutates_only_velocities [ballA, ballBsep] ballManifold ballA ballBsep
      ballContact).2.2.2.2
     (by norm_num [ballManifold, ballContact, velAlongNormal, contactRv, contactRa, contactRb,
        cross_sv, ballA, ballB, ballBsep, Body.new_dynamic, Vec2.sub, Vec2.add, Vec2.dot,
        Vec2.mul, Vec2.zero, Flt.blt, Flt.neg])⟩

/-- Broadphase over a two-body world: exactly the (0,1) pair, unless both
bodies are static. -/
theorem gatherContacts_pair (x y : Body) :
    gatherContacts [x, y] =
      if x.is_static && y.is_static then [] else (circle_circle 0 1 x y).toList := by
  by_cases hss : (x.is_static && y.is_static) = true
  · obtain ⟨hx, hy⟩ := (Bool.and_eq_true _ _).mp hss
    simp [gatherContacts, List.range_succ, List.range', hx, hy, List.filterMap_cons,
      List.filterMap_nil]
  · rw [Bool.and_eq_true _ _] at hss
    cases hc : circle_circle 0 1 x y <;>
      simp [gatherContacts, List.range_succ, List.range', hss, hc, List.filterMap_cons,
        List.filterMap_nil]

theorem ratSqrt94 : Rat.sqrt (9/4) = 3/2 := by
  rw [show (9/4 : ℚ) = (3/2) * (3/2) by norm_num]
  exact ratSqrt_mul_self _ (by norm_num)

/-- Concrete narrowphase result for the two overlapping unit circles. -/
theorem cc_balls : circle_circle 0 1 ballA ballB = some ballManifold := by
  norm_num [circle_circle, ballA, ballB, Body.new_dynamic, Flt.sqrt, Flt.div, ballManifold,
    ballContact, Vec2.sub, Vec2.len2, Vec2.dot, Vec2.add, Vec2.mul, Vec2.div, Vec2.unitX,
    Vec2.zero, Material.default]
  norm_num [show ((3:ℚ)/2 - 0) * ((3:ℚ)/2 - 0) + (0 - 0) * (0 - 0) = 9/4 by norm_num, ratSqrt94]

/-- A manifold produced by `circle_circle` carries exactly the two ids it was
given. -/
theorem circle_circle_ids (i j : ℕ) (a b : Body) (mfd : Manifold)
    (h : circle_circle i j a b = some mfd) : mfd.a = i ∧ mfd.b = j := by
  unfold circle_circle at h
  cases ha : a.shape with
  | Box hx hy => rw [ha] at h; cases h
  | Circle ra =>
      cases hb : b.shape with
      | Box hx hy => rw [ha, hb] at h; cases h
      | Circle rb =>
          rw [ha, hb] at h
          simp only [] at h
          split at h
          · cases h
          · obtain rfl := (Option.some.inj h).symm
            exact ⟨rfl, rfl⟩

/-- C9: every manifold gathered by the broadphase has distinct indices with
`a < b`, both in range, and the two referenced bodies are never both static;
hence the `get2_mut` assertion `i != j` cannot fire during `step` and the
solver never resolves a manifold between a body and itself. -/
theorem c9_gathered_manifolds_wellformed (bodies : List Body) (mfd : Manifold)
    (h : mfd ∈ gatherContacts bodies) :
    mfd.a < mfd.b ∧ mfd.b < bodies.length ∧ mfd.a ≠ mfd.b ∧
    ((bodies.getD mfd.a Body.dummy).is_static &&
      (bodies.getD mfd.b Body.dummy).is_static) = false := by
  unfold gatherContacts at h
  rw [List.mem_flatMap] at h
  obtain ⟨i, hi, h⟩ := h
  rw [List.mem_filterMap] at h
  obtain ⟨j, hj, h⟩ := h
  rw [List.mem_range] at hi
  rw [List.mem_range'_1] at hj
  by_cases hss : ((bodies.getD i Body.dummy).is_static &&
      (bodies.getD j Body.dummy).is_static) = true
  · rw [if_pos hss] at h
    cases h
  · rw [if_neg hss] at h
    obtain ⟨hA, hB⟩ := circle_circle_ids i j _ _ mfd h
    rw [hA, hB]
    exact ⟨by omega, by omega, by omega, by simpa using hss⟩

/-- C9 witness: the two overlapping unit circles produce exactly one
manifold, and it satisfies all the gathered-manifold invariants. -/
theorem c9_witness_concrete :
    ballManifold.a < ballManifold.b ∧ ballManifold.b < ([ballA, ballB] : List Body).length ∧
    ballManifold.a ≠ ballManifold.b ∧
    ((([ballA, ballB] : List Body).getD ballManifold.a Body.dummy).is_static &&
      (([ballA, ballB] : List Body).getD ballManifold.b Body.dummy).is_static) = false :=
  c9_gathered_manifolds_wellformed [ballA, ballB] ballManifold (by
    rw [gatherContacts_pair, if_neg (by norm_num [ballA, ballB, Body.new_dynamic]), cc_balls]
    exact List.mem_singleton.mpr rfl)

/-- C4: `circle_circle` on two finite circle bodies returns no manifold iff
the squared center distance is at least the squared radius sum; otherwise it
returns the manifold with ids `(i, j)`, penetration `r - |d|`, normal
`d / |d|` when `|d| > 1e-5` and the fixed unit vector (1,0) otherwise, and
contact point `center_a + normal * radius_a` (here `|d| = s` is supplied as
the exact square root of the squared distance, which is what the idealised
arithmetic computes); for every pair in which either shape is a box it
returns no manifold. -/
theorem c4_circle_circle_characterised :
    (∀ (i j : ℕ) (a b : Body),
      ((∃ hx hy, a.shape = Shape.Box hx hy) ∨ (∃ hx hy, b.shape = Shape.Box hx hy)) →
      circle_circle i j a b = none) ∧
    (∀ (i j : ℕ) (a b : Body) (ra rb ax ay bx qy : ℚ),
      a.shape = Shape.Circle (Flt.fin ra) → b.shape = Shape.Circle (Flt.fin rb) →
      a.p = ⟨Flt.fin ax, Flt.fin ay⟩ → b.p = ⟨Flt.fin bx, Flt.fin qy⟩ →
      (circle_circle i j a b = none ↔
        (ra + rb) * (ra + rb) ≤ (bx - ax) * (bx - ax) + (qy - ay) * (qy - ay)) ∧
      (∀ s : ℚ, 0 ≤ s →
        s * s = (bx - ax) * (bx - ax) + (qy - ay) * (qy - ay) →
        s * s < (ra + rb) * (ra + rb) →
        circle_circle i j a b = some ⟨i, j,
          { point := Vec2.add a.p ((if 1/100000 < s then
                (⟨Flt.fin ((bx - ax) / s), Flt.fin ((qy - ay) / s)⟩ : Vec2)
              else Vec2.unitX).mul (Flt.fin ra)),
            normal := if 1/100000 < s then
                (⟨Flt.fin ((bx - ax) / s), Flt.fin ((qy - ay) / s)⟩ : Vec2)
              else Vec2.unitX,
            penetration := Flt.fin (ra + rb - s) }⟩)) := by
  constructor
  · rintro i j a b (⟨hx, hy, ha⟩ | ⟨hx, hy, hb⟩)
    · unfold circle_circle
      rw [ha]
    · unfold circle_circle
      rw [hb]
      cases a.shape <;> rfl
  · intro i j a b ra rb ax ay bx qy ha hb hpa hpb
    have hdist2 : (b.p.sub a.p).len2
        = Flt.fin ((bx - ax) * (bx - ax) + (qy - ay) * (qy - ay)) := by
      rw [hpa, hpb]
      simp [Vec2.sub, Vec2.len2, Vec2.dot]
    constructor
    · unfold circle_circle
      rw [ha, hb]
      simp only []
      rw [hdist2]
      by_cases hcond : (ra + rb) * (ra + rb) ≤ (bx - ax) * (bx - ax) + (qy - ay) * (qy - ay)
      · simp [hcond]
      · simp [hcond]
    · intro s hs0 hss hlt
      unfold circle_circle
      rw [ha, hb]
      simp only []
      rw [hdist2, ← hss]
      rw [if_neg (by simp only [Flt.mul_fin, Flt.add_fin, Flt.ble_fin]; simpa using not_le.mpr hlt)]
      rw [Flt.sqrt_fin _ (mul_self_nonneg s), ratSqrt_mul_self s hs0]
      by_cases hthr : (1/100000 : ℚ) < s
      · have hsne : s ≠ 0 := by positivity
        rw [if_pos (by simpa using hthr)]
        rw [if_pos hthr]
        rw [hpa, hpb]
        simp [Vec2.sub, Vec2.div, Vec2.add, Vec2.mul, Flt.div_fin _ _ hsne, hss]
      · rw [if_neg (by simpa using hthr)]
        rw [if_neg hthr]
        rw [hpa]
        simp [Vec2.add, Vec2.mul, Vec2.unitX, hss]

/-- C4 witness: a box pair yields no manifold; unit circles at center
distance 3 yield no manifold (4 ≤ 9); radius-3 circles at center distance 5
collide with penetration 1, normal (3/5, 4/5) and contact point on A's
surface. -/
theorem c4_witness_concrete :
    circle_circle 0 1 boxBody ballA = none ∧
    (circle_circle 0 1 ballA circleFar = none ↔
      ((1:ℚ) + 1) * (1 + 1) ≤ (3 - 0) * (3 - 0) + (0 - 0) * (0 - 0)) ∧
    circle_circle 0 1 circleA3 circleB3 = some ⟨0, 1,
      { point := Vec2.add circleA3.p ((if 1/100000 < (5:ℚ) then
            (⟨Flt.fin ((3 - 0) / 5), Flt.fin ((4 - 0) / 5)⟩ : Vec2)
          else Vec2.unitX).mul (Flt.fin 3)),
        normal := if 1/100000 < (5:ℚ) then
            (⟨Flt.fin ((3 - 0) / 5), Flt.fin ((4 - 0) / 5)⟩ : Vec2)
          else Vec2.unitX,
        penetration := Flt.fin (3 + 3 - 5) }⟩ :=
  ⟨c4_circle_circle_characterised.1 0 1 boxBody ballA (Or.inl ⟨Flt.fin 20, Flt.fin 1, rfl⟩),
   (c4_circle_circle_characterised.2 0 1 ballA circleFar 1 1 0 0 3 0 rfl rfl rfl rfl).1,
   (c4_circle_circle_characterised.2 0 1 circleA3 circleB3 3 3 0 0 3 4 rfl rfl rfl rfl).2 5
     (by norm_num) (by norm_num) (by norm_num)⟩

theorem Flt.isFin_elim {x : Flt} (h : x.isFin = true) : ∃ q, x = Flt.fin q :=
  (Flt.isFin_iff x).1 h

theorem Flt.isNN_elim {x : Flt} (h : x.isNN = true) : ∃ q, x = Flt.fin q ∧ 0 ≤ q :=
  (Flt.isNN_iff x).1 h

theorem Flt.isFin_add {x y : Flt} (hx : x.isFin = true) (hy : y.isFin = true) :
    (Flt.add x y).isFin = true := by
  cases x <;> cases y <;> simp_all [Flt.add, Flt.isFin]

theorem Flt.isFin_neg {x : Flt} (hx : x.isFin = true) : x.neg.isFin = true := by
  cases x <;> simp_all [Flt.neg, Flt.isFin]

theorem Flt.isFin_sub {x y : Flt} (hx : x.isFin = true) (hy : y.isFin = true) :
    (Flt.sub x y).isFin = true :=
  Flt.isFin_add hx (Flt.isFin_neg hy)

theorem Flt.isFin_mul {x y : Flt} (hx : x.isFin = true) (hy : y.isFin = true) :
    (Flt.mul x y).isFin = true := by
  cases x <;> cases y <;> simp_all [Flt.mul, Flt.isFin]

theorem Flt.isNN_add2 {x y : Flt} (hx : x.isNN = true) (hy : y.isNN = true) :
    (Flt.add x y).isNN = true := by
  obtain ⟨a, rfl, ha⟩ := Flt.isNN_elim hx
  obtain ⟨b, rfl, hb⟩ := Flt.isNN_elim hy
  simp [Flt.isNN]
  linarith

theorem Flt.isNN_sqmul {x y : Flt} (hx : x.isFin = true) (hy : y.isNN = true) :
    (Flt.mul (Flt.mul x x) y).isNN = true := by
  obtain ⟨a, rfl⟩ := Flt.isFin_elim hx
  obtain ⟨b, rfl, hb⟩ := Flt.isNN_elim hy
  simp [Flt.isNN]
  exact mul_nonneg (mul_self_nonneg a) hb

theorem Vec2OKb_elim {v : Vec2} (h : Vec2OKb v = true) :
    ∃ qx qy, v = ⟨Flt.fin qx, Flt.fin qy⟩ := by
  obtain ⟨h1, h2⟩ := (Bool.and_eq_true _ _).mp h
  obtain ⟨qx, hx⟩ := Flt.isFin_elim h1
  obtain ⟨qy, hy⟩ := Flt.isFin_elim h2
  exact ⟨qx, qy, by rw [← hx, ← hy]⟩

theorem Vec2OKb_mk (qx qy : ℚ) : Vec2OKb ⟨Flt.fin qx, Flt.fin qy⟩ = true := rfl

theorem Vec2OKb_zero : Vec2OKb Vec2.zero = true := rfl

theorem Vec2OKb_add {u v : Vec2} (hu : Vec2OKb u = true) (hv : Vec2OKb v = true) :
    Vec2OKb (u.add v) = true := by
  obtain ⟨ux, uy, rfl⟩ := Vec2OKb_elim hu
  obtain ⟨vx, vy, rfl⟩ := Vec2OKb_elim hv
  rfl

theorem Vec2OKb_sub {u v : Vec2} (hu : Vec2OKb u = true) (hv : Vec2OKb v = true) :
    Vec2OKb (u.sub v) = true := by
  obtain ⟨ux, uy, rfl⟩ := Vec2OKb_elim hu
  obtain ⟨vx, vy, rfl⟩ := Vec2OKb_elim hv
  simp [Vec2.sub, Vec2OKb]

theorem Vec2OKb_mulF {v : Vec2} {s : Flt} (hv : Vec2OKb v = true) (hs : s.isFin = true) :
    Vec2OKb (v.mul s) = true := by
  obtain ⟨vx, vy, rfl⟩ := Vec2OKb_elim hv
  obtain ⟨q, rfl⟩ := Flt.isFin_elim hs
  rfl

theorem Flt.isFin_dot {u v : Vec2} (hu : Vec2OKb u = true) (hv : Vec2OKb v = true) :
    (u.dot v).isFin = true := by
  obtain ⟨ux, uy, rfl⟩ := Vec2OKb_elim hu
  obtain ⟨vx, vy, rfl⟩ := Vec2OKb_elim hv
  rfl

theorem Flt.isFin_crossVec {u v : Vec2} (hu : Vec2OKb u = true) (hv : Vec2OKb v = true) :
    (u.cross v).isFin = true := by
  obtain ⟨ux, uy, rfl⟩ := Vec2OKb_elim hu
  obtain ⟨vx, vy, rfl⟩ := Vec2OKb_elim hv
  simp [Vec2.cross]

theorem Vec2OKb_crossSv {s : Flt} {v : Vec2} (hs : s.isFin = true) (hv : Vec2OKb v = true) :
    Vec2OKb (cross_sv s v) = true := by
  obtain ⟨q, rfl⟩ := Flt.isFin_elim hs
  obtain ⟨vx, vy, rfl⟩ := Vec2OKb_elim hv
  rfl

/-- The length of a finite vector is a finite non-negative float. -/
theorem Flt.isNN_len {v : Vec2} (hv : Vec2OKb v = true) : v.len.isNN = true := by
  obtain ⟨vx, vy, rfl⟩ := Vec2OKb_elim hv
  show ((Vec2.mk (Flt.fin vx) (Flt.fin vy)).len).isNN = true
  unfold Vec2.len Vec2.len2
  rw [show (Vec2.mk (Flt.fin vx) (Flt.fin vy)).dot ⟨Flt.fin vx, Flt.fin vy⟩
      = Flt.fin (vx * vx + vy * vy) from rfl]
  rw [Flt.sqrt_fin (vx * vx + vy * vy) (add_nonneg (mul_self_nonneg vx) (mul_self_nonneg vy))]
  simp [Flt.isNN, Rat.sqrt_nonneg]

theorem Vec2OKb_normalized {v : Vec2} (hv : Vec2OKb v = true) :
    Vec2OKb v.normalized = true := by
  obtain ⟨L, hL, hL0⟩ := Flt.isNN_elim (Flt.isNN_len hv)
  obtain ⟨vx, vy, rfl⟩ := Vec2OKb_elim hv
  unfold Vec2.normalized
  rw [hL]
  by_cases hpos : 0 < L
  · rw [if_pos (by simp [hpos])]
    simp [Vec2.div, Flt.div_fin _ _ (ne_of_gt hpos), Vec2OKb]
  · rw [if_neg (by simp [hpos])]
    rfl

theorem BodyOK_elim {b : Body} (h : BodyOKb b = true) :
    ∃ (px py aa vx vy ww fx fy tt mm im ii jj er fr : ℚ),
      b.p = ⟨Flt.fin px, Flt.fin py⟩ ∧ b.a = Flt.fin aa ∧
      b.v = ⟨Flt.fin vx, Flt.fin vy⟩ ∧ b.w = Flt.fin ww ∧
      b.f = ⟨Flt.fin fx, Flt.fin fy⟩ ∧ b.t = Flt.fin tt ∧
      b.m = Flt.fin mm ∧ b.inv_m = Flt.fin im ∧ b.i = Flt.fin ii ∧
      b.inv_i = Flt.fin jj ∧ b.material = ⟨Flt.fin er, Flt.fin fr⟩ ∧
      0 ≤ im ∧ 0 ≤ jj ∧ 0 ≤ er ∧ 0 ≤ fr := by
  simp only [BodyOKb, Vec2OKb, MaterialOKb, Bool.and_eq_true, and_assoc] at h
  obtain ⟨h1, h2, h3, h4, h5, h6, h7, h8, h9, h10, h11, h12, h13⟩ := h
  obtain ⟨px, hpx⟩ := Flt.isFin_elim h1
  obtain ⟨py, hpy⟩ := Flt.isFin_elim h2
  obtain ⟨aa, haa⟩ := Flt.isFin_elim h3
  obtain ⟨vx, hvx⟩ := Flt.isFin_elim h4
  obtain ⟨vy, hvy⟩ := Flt.isFin_elim h5
  obtain ⟨ww, hww⟩ := Flt.isFin_elim h6
  obtain ⟨fx, hfx⟩ := Flt.isFin_elim h7
  obtain ⟨fy, hfy⟩ := Flt.isFin_elim h8
  obtain ⟨tt, htt⟩ := Flt.isFin_elim h9
  obtain ⟨mm, hmm⟩ := Flt.isFin_elim h10
  obtain ⟨im, him, him0⟩ := Flt.isNN_elim h11
  obtain ⟨ii, hii⟩ := Flt.isFin_elim h12
  obtain ⟨jj, hjj, hjj0⟩ := Flt.isNN_elim h13.1
  obtain ⟨er, her, her0⟩ := Flt.isNN_elim h13.2.1
  obtain ⟨fr, hfr, hfr0⟩ := Flt.isNN_elim h13.2.2.1
  refine ⟨px, py, aa, vx, vy, ww, fx, fy, tt, mm, im, ii, jj, er, fr,
    ?_, haa, ?_, hww, ?_, htt, hmm, him, hii, hjj, ?_, him0, hjj0, her0, hfr0⟩
  · rw [← hpx, ← hpy]
  · rw [← hvx, ← hvy]
  · rw [← hfx, ← hfy]
  · rw [← her, ← hfr]

theorem ContactOK_elim {c : Contact} (h : ContactOKb c = true) :
    ∃ (cx cy nx ny pq : ℚ),
      c.point = ⟨Flt.fin cx, Flt.fin cy⟩ ∧ c.normal = ⟨Flt.fin nx, Flt.fin ny⟩ ∧
      c.penetration = Flt.fin pq := by
  simp only [ContactOKb, Vec2OKb, Bool.and_eq_true, and_assoc] at h
  obtain ⟨h1, h2, h3, h4, h5⟩ := h
  obtain ⟨cx, hcx⟩ := Flt.isFin_elim h1
  obtain ⟨cy, hcy⟩ := Flt.isFin_elim h2
  obtain ⟨nx, hnx⟩ := Flt.isFin_elim h3
  obtain ⟨ny, hny⟩ := Flt.isFin_elim h4
  obtain ⟨pq, hpq⟩ := Flt.isFin_elim h5
  refine ⟨cx, cy, nx, ny, pq, ?_, ?_, hpq⟩
  · rw [← hcx, ← hcy]
  · rw [← hnx, ← hny]

/-- C10: whenever `solve_contact` reaches the impulse computation (the
relative normal velocity is non-positive and the effective inverse mass sum
along the normal is positive) on well-formed bodies with non-negative
restitutions, the impulse scalar `j` is non-negative: the solver only pushes
bodies apart along the normal. -/
theorem c10_normal_impulse_nonneg (a b : Body) (c : Contact)
    (hA : BodyOKb a = true) (hB : BodyOKb b = true) (hC : ContactOKb c = true)
    (hsep : Flt.ble (velAlongNormal a b c) (Flt.fin 0) = true)
    (hpos : Flt.blt (Flt.fin 0) (invMassSumN a b c) = true) :
    ∃ jq : ℚ, jScalar a b c = Flt.fin jq ∧ 0 ≤ jq := by
  obtain ⟨pax, pay, aaa, vax, vay, waa, fax, fay, taa, maa, ima, iia, jja, era, fra,
    hpa, haa, hva, hwa, hfa, hta, hma, hima, hiia, hjja, hmata,
    hima0, hjja0, hera0, hfra0⟩ := BodyOK_elim hA
  obtain ⟨pbx, pby, abb, vbx, vby, wbb, fbx, fby, tbb, mbb, imb, iib, jjb, erb, frb,
    hpb, hab, hvb, hwb, hfb, htb, hmb, himb, hiib, hjjb, hmatb,
    himb0, hjjb0, herb0, hfrb0⟩ := BodyOK_elim hB
  obtain ⟨cx, cy, nx, ny, pq, hcp, hcn, hpen⟩ := ContactOK_elim hC
  obtain ⟨vnq, hvn⟩ : ∃ q, velAlongNormal a b c = Flt.fin q :=
    ⟨_, by
      simp only [velAlongNormal, contactRv, contactRa, contactRb, cross_sv, Vec2.sub,
        Vec2.add, Vec2.dot, hpa, hva, hwa, hpb, hvb, hwb, hcp, hcn, Flt.add_fin, Flt.sub_fin,
        Flt.mul_fin, Flt.neg_fin]
      rfl⟩
  obtain ⟨kq, hk⟩ : ∃ q, invMassSumN a b c = Flt.fin q :=
    ⟨_, by
      simp only [invMassSumN, contactRa, contactRb, Vec2.sub, Vec2.cross, hpa, hpb, hcp,
        hcn, hima, himb, hiia, hiib, hjja, hjjb, Flt.add_fin, Flt.sub_fin, Flt.mul_fin]
      rfl⟩
  have hmin : restitutionMin a b = Flt.fin (min era erb) := by
    unfold restitutionMin
    rw [hmata, hmatb]
    simp
  rw [hvn] at hsep
  rw [hk] at hpos
  have hvn0 : vnq ≤ 0 := by simpa using hsep
  have hk0 : 0 < kq := by simpa using hpos
  have hj : jScalar a b c = Flt.fin (-(1 + min era erb) * vnq / kq) := by
    unfold jScalar
    rw [hvn, hk, hmin]
    simp [Flt.div_fin _ _ (ne_of_gt hk0)]
  refine ⟨_, hj, ?_⟩
  have hmin0 : 0 ≤ min era erb := le_min hera0 herb0
  have hnum : 0 ≤ -(1 + min era erb) * vnq := by nlinarith
  exact div_nonneg hnum (le_of_lt hk0)

/-- C10 witness: `ballAmov` approaching `ballB` head-on gives a non-negative
normal impulse scalar. -/
theorem c10_witness_concrete :
    ∃ jq : ℚ, jScalar ballAmov ballB ballContact = Flt.fin jq ∧ 0 ≤ jq :=
  c10_normal_impulse_nonneg ballAmov ballB ballContact
    (by norm_num [BodyOKb, Vec2OKb, MaterialOKb, ShapeOKb, Flt.isFin, Flt.isNN, ballAmov, ballA,
      Body.new_dynamic, Material.default, Vec2.zero, Flt.div, Flt.blt])
    (by norm_num [BodyOKb, Vec2OKb, MaterialOKb, ShapeOKb, Flt.isFin, Flt.isNN, ballB,
      Body.new_dynamic, Material.default, Vec2.zero, Flt.div, Flt.blt])
    (by norm_num [ContactOKb, Vec2OKb, Flt.isFin, ballContact])
    (by norm_num [velAlongNormal, contactRv, contactRa, contactRb, cross_sv, Vec2.sub,
      Vec2.add, Vec2.dot, ballAmov, ballA, ballB, ballContact, Body.new_dynamic, Vec2.zero,
      Flt.ble, Flt.neg])
    (by norm_num [invMassSumN, contactRa, contactRb, Vec2.sub, Vec2.cross, ballAmov, ballA,
      ballB, ballContact, Body.new_dynamic, Vec2.zero, Flt.blt, Flt.div])

/-- C7: in contact resolution with non-negative friction and restitution
coefficients (and well-formed bodies), once the friction stage is reached the
applied friction impulse is the tangential impulse `jt = -(rv.tangent)/k_t`
clamped to `[-mu*j, mu*j]` with `mu = sqrt(frictionA*frictionB)`, and its
magnitude never exceeds `mu` times the (non-negative) normal impulse `j`;
the solver's velocity updates use exactly this clamped impulse. -/
theorem c7_friction_clamped (a b : Body) (c : Contact)
    (hA : BodyOKb a = true) (hB : BodyOKb b = true) (hC : ContactOKb c = true)
    (hsep : Flt.blt (Flt.fin 0) (velAlongNormal a b c) = false)
    (hkn : Flt.beq (invMassSumN a b c) (Flt.fin 0) = false)
    (hkt : Flt.beq (invMassSumT a b c) (Flt.fin 0) = false) :
    ∃ (jq muq jtq : ℚ),
      jScalar a b c = Flt.fin jq ∧ 0 ≤ jq ∧
      muCoef a b = Flt.fin muq ∧ 0 ≤ muq ∧
      muCoef a b = Flt.sqrt (Flt.mul a.material.friction b.material.friction) ∧
      jtClamped a b c = Flt.clamp (jtScalar a b c)
        (Flt.mul (Flt.neg (muCoef a b)) (jScalar a b c))
        (Flt.mul (muCoef a b) (jScalar a b c)) ∧
      jtClamped a b c = Flt.fin jtq ∧ |jtq| ≤ muq * jq ∧
      (solveContactPair a b c).1.v
        = (a.v.sub ((c.normal.mul (jScalar a b c)).mul a.inv_m)).sub
            (((tangentDir a b c).mul (jtClamped a b c)).mul a.inv_m) ∧
      (solveContactPair a b c).2.v
        = (b.v.add ((c.normal.mul (jScalar a b c)).mul b.inv_m)).add
            (((tangentDir a b c).mul (jtClamped a b c)).mul b.inv_m) := by
  obtain ⟨pax, pay, aaa, vax, vay, waa, fax, fay, taa, maa, ima, iia, jja, era, fra,
    hpa, haa, hva, hwa, hfa, hta, hma, hima, hiia, hjja, hmata,
    hima0, hjja0, hera0, hfra0⟩ := BodyOK_elim hA
  obtain ⟨pbx, pby, abb, vbx, vby, wbb, fbx, fby, tbb, mbb, imb, iib, jjb, erb, frb,
    hpb, hab, hvb, hwb, hfb, htb, hmb, himb, hiib, hjjb, hmatb,
    himb0, hjjb0, herb0, hfrb0⟩ := BodyOK_elim hB
  obtain ⟨cx, cy, nx, ny, pq, hcp, hcn, hpen⟩ := ContactOK_elim hC
  -- basic well-formedness of the geometric pieces
  have hraOK : Vec2OKb (contactRa a c) = true := by
    unfold contactRa
    rw [hcp, hpa]
    exact Vec2OKb_sub (Vec2OKb_mk _ _) (Vec2OKb_mk _ _)
  have hrbOK : Vec2OKb (contactRb b c) = true := by
    unfold contactRb
    rw [hcp, hpb]
    exact Vec2OKb_sub (Vec2OKb_mk _ _) (Vec2OKb_mk _ _)
  have hnOK : Vec2OKb c.normal = true := by rw [hcn]; exact Vec2OKb_mk _ _
  have hrvOK : Vec2OKb (contactRv a b c) = true := by
    unfold contactRv
    refine Vec2OKb_sub (Vec2OKb_add ?_ (Vec2OKb_crossSv ?_ hrbOK))
      (Vec2OKb_add ?_ (Vec2OKb_crossSv ?_ hraOK))
    · rw [hvb]; exact Vec2OKb_mk _ _
    · rw [hwb]; rfl
    · rw [hva]; exact Vec2OKb_mk _ _
    · rw [hwa]; rfl
  have htanOK : Vec2OKb (tangentDir a b c) = true := by
    unfold tangentDir
    exact Vec2OKb_normalized (Vec2OKb_sub hrvOK
      (Vec2OKb_mulF hnOK (Flt.isFin_dot hrvOK hnOK)))
  -- the two effective-mass sums are finite and non-negative
  have hkNN : (invMassSumN a b c).isNN = true := by
    unfold invMassSumN
    refine Flt.isNN_add2 (Flt.isNN_add2 (Flt.isNN_add2 ?_ ?_)
      (Flt.isNN_sqmul (Flt.isFin_crossVec hraOK hnOK) ?_))
      (Flt.isNN_sqmul (Flt.isFin_crossVec hrbOK hnOK) ?_)
    · rw [hima]; simp [Flt.isNN, hima0]
    · rw [himb]; simp [Flt.isNN, himb0]
    · rw [hjja]; simp [Flt.isNN, hjja0]
    · rw [hjjb]; simp [Flt.isNN, hjjb0]
  have hktNN : (invMassSumT a b c).isNN = true := by
    unfold invMassSumT
    refine Flt.isNN_add2 (Flt.isNN_add2 (Flt.isNN_add2 ?_ ?_)
      (Flt.isNN_sqmul (Flt.isFin_crossVec hraOK htanOK) ?_))
      (Flt.isNN_sqmul (Flt.isFin_crossVec hrbOK htanOK) ?_)
    · rw [hima]; simp [Flt.isNN, hima0]
    · rw [himb]; simp [Flt.isNN, himb0]
    · rw [hjja]; simp [Flt.isNN, hjja0]
    · rw [hjjb]; simp [Flt.isNN, hjjb0]
  obtain ⟨kq, hkfin, hkq0⟩ := Flt.isNN_elim hkNN
  obtain ⟨ktq, hktfin, hktq0⟩ := Flt.isNN_elim hktNN
  rw [hkfin] at hkn
  rw [hktfin] at hkt
  have hkne : kq ≠ 0 := by simpa using hkn
  have hktne : ktq ≠ 0 := by simpa using hkt
  have hkpos : 0 < kq := lt_of_le_of_ne hkq0 (Ne.symm hkne)
  -- relative normal velocity
  obtain ⟨vnq, hvn⟩ : ∃ q, velAlongNormal a b c = Flt.fin q :=
    ⟨_, by
      simp only [velAlongNormal, contactRv, contactRa, contactRb, cross_sv, Vec2.sub,
        Vec2.add, Vec2.dot, hpa, hva, hwa, hpb, hvb, hwb, hcp, hcn, Flt.add_fin, Flt.sub_fin,
        Flt.mul_fin, Flt.neg_fin]
      rfl⟩
  rw [hvn] at hsep
  have hvn0 : vnq ≤ 0 := by simpa using hsep
  have hmin : restitutionMin a b = Flt.fin (min era erb) := by
    unfold restitutionMin
    rw [hmata, hmatb]
    simp
  have hj : jScalar a b c = Flt.fin (-(1 + min era erb) * vnq / kq) := by
    unfold jScalar
    rw [hvn, hkfin, hmin]
    simp [Flt.div_fin _ _ hkne]
  have hj0 : 0 ≤ -(1 + min era erb) * vnq / kq := by
    have hmin0 : 0 ≤ min era erb := le_min hera0 herb0
    have hnum : 0 ≤ -(1 + min era erb) * vnq := by nlinarith
    exact div_nonneg hnum hkq0
  -- friction coefficient
  have hmu : muCoef a b = Flt.fin (Rat.sqrt (fra * frb)) := by
    unfold muCoef
    rw [hmata, hmatb]
    show Flt.sqrt (Flt.mul (Flt.fin fra) (Flt.fin frb)) = _
    rw [Flt.mul_fin, Flt.sqrt_fin _ (mul_nonneg hfra0 hfrb0)]
  have hmu0 : (0:ℚ) ≤ Rat.sqrt (fra * frb) := Rat.sqrt_nonneg _
  -- tangential impulse before the clamp
  obtain ⟨dq, hdq⟩ := Flt.isFin_elim (Flt.isFin_dot hrvOK htanOK)
  have hjt : jtScalar a b c = Flt.fin (-dq / ktq) := by
    unfold jtScalar
    rw [hdq, hktfin]
    simp [Flt.div_fin _ _ hktne]
  -- the clamp and its bound
  set jq := -(1 + min era erb) * vnq / kq with hjqdef
  set muq := Rat.sqrt (fra * frb) with hmuqdef
  have hmuj0 : 0 ≤ muq * jq := mul_nonneg hmu0 hj0
  have hclamp : jtClamped a b c = Flt.clamp (Flt.fin (-dq / ktq))
      (Flt.fin (-(muq * jq))) (Flt.fin (muq * jq)) := by
    unfold jtClamped
    rw [hjt, hmu, hj]
    simp only [Flt.neg_fin, Flt.mul_fin, neg_mul]
  have hcases : ∃ jtq : ℚ, jtClamped a b c = Flt.fin jtq ∧ |jtq| ≤ muq * jq := by
    rw [hclamp]
    unfold Flt.clamp
    by_cases h1 : -dq / ktq < -(muq * jq)
    · rw [if_pos (by simp only [Flt.blt_fin, decide_eq_true_eq]; exact h1)]
      refine ⟨-(muq * jq), rfl, ?_⟩
      rw [abs_neg, abs_of_nonneg hmuj0]
    · rw [if_neg (by simp only [Flt.blt_fin, decide_eq_true_eq]; exact h1)]
      by_cases h2 : muq * jq < -dq / ktq
      · rw [if_pos (by simp only [Flt.blt_fin, decide_eq_true_eq]; exact h2)]
        exact ⟨muq * jq, rfl, le_of_eq (abs_of_nonneg hmuj0)⟩
      · rw [if_neg (by simp only [Flt.blt_fin, decide_eq_true_eq]; exact h2)]
        refine ⟨-dq / ktq, rfl, abs_le.mpr ⟨by linarith, by linarith⟩⟩
  obtain ⟨jtq, hjc, hjcb⟩ := hcases
  have hsepF : Flt.blt (Flt.fin 0) (velAlongNormal a b c) = false := by
    rw [hvn]
    exact hsep
  have hknF : Flt.beq (invMassSumN a b c) (Flt.fin 0) = false := by
    rw [hkfin]
    exact hkn
  have hktF : Flt.beq (invMassSumT a b c) (Flt.fin 0) = false := by
    rw [hktfin]
    exact hkt
  refine ⟨jq, muq, jtq, ?_, hj0, hmu, hmu0, rfl, rfl, hjc, hjcb, ?_, ?_⟩
  · rw [hj]
  · unfold solveContactPair
    rw [if_neg (by simp [hsepF]), if_neg (by simp [hknF]), if_neg (by simp [hktF])]
  · unfold solveContactPair
    rw [if_neg (by simp [hsepF]), if_neg (by simp [hknF]), if_neg (by simp [hktF])]

/-- C7 witness: an oblique collision of two unit circles with friction 1 and
restitution 0, which reaches the friction stage of the solver. -/
theorem c7_witness_concrete :
    ∃ (jq muq jtq : ℚ),
      jScalar fricA fricB degContact = Flt.fin jq ∧ 0 ≤ jq ∧
      muCoef fricA fricB = Flt.fin muq ∧ 0 ≤ muq ∧
      muCoef fricA fricB = Flt.sqrt (Flt.mul fricA.material.friction fricB.material.friction) ∧
      jtClamped fricA fricB degContact = Flt.clamp (jtScalar fricA fricB degContact)
        (Flt.mul (Flt.neg (muCoef fricA fricB)) (jScalar fricA fricB degContact))
        (Flt.mul (muCoef fricA fricB) (jScalar fricA fricB degContact)) ∧
      jtClamped fricA fricB degContact = Flt.fin jtq ∧ |jtq| ≤ muq * jq ∧
      (solveContactPair fricA fricB degContact).1.v
        = (fricA.v.sub ((degContact.normal.mul (jScalar fricA fricB degContact)).mul fricA.inv_m)).sub
            (((tangentDir fricA fricB degContact).mul (jtClamped fricA fricB degContact)).mul fricA.inv_m) ∧
      (solveContactPair fricA fricB degContact).2.v
        = (fricB.v.add ((degContact.normal.mul (jScalar fricA fricB degContact)).mul fricB.inv_m)).add
            (((tangentDir fricA fricB degContact).mul (jtClamped fricA fricB degContact)).mul fricB.inv_m) :=
  c7_friction_clamped fricA fricB degContact
    (by norm_num [BodyOKb, Vec2OKb, MaterialOKb, ShapeOKb, Flt.isFin, Flt.isNN, fricA,
      Body.new_dynamic, Material.default, Vec2.zero, Flt.div, Flt.blt])
    (by norm_num [BodyOKb, Vec2OKb, MaterialOKb, ShapeOKb, Flt.isFin, Flt.isNN, fricB,
      Body.new_dynamic, Material.default, Vec2.zero, Flt.div, Flt.blt])
    (by norm_num [ContactOKb, Vec2OKb, Flt.isFin, degContact])
    (by norm_num [velAlongNormal, contactRv, contactRa, contactRb, cross_sv, Vec2.sub,
      Vec2.add, Vec2.dot, fricA, fricB, degContact, Body.new_dynamic, Vec2.zero, Flt.blt,
      Flt.neg])
    (by norm_num [invMassSumN, contactRa, contactRb, Vec2.sub, Vec2.cross, fricA, fricB,
      degContact, Body.new_dynamic, Vec2.zero, Flt.beq, Flt.div, Flt.blt])
    (by norm_num [invMassSumT, tangentDir, contactRv, contactRa, contactRb, cross_sv,
      Vec2.normalized, Vec2.len, Vec2.len2, Vec2.dot, Vec2.sub, Vec2.add, Vec2.mul, Vec2.div,
      Vec2.cross, Vec2.zero, fricA, fricB, degContact, Body.new_dynamic, Flt.sqrt, Flt.div,
      Flt.blt, Flt.beq, Flt.neg, Nat.sqrt_one])

/-- `Body::new_dynamic` on a circle with positive mass and radius, in closed
form. -/
theorem new_dynamic_circle_pos (r mq : ℚ) (pos : Vec2) (hr : 0 < r) (hmq : 0 < mq) :
    Body.new_dynamic (Shape.Circle (Flt.fin r)) (Flt.fin mq) pos =
      { p := pos, a := Flt.fin 0, v := Vec2.zero, w := Flt.fin 0, f := Vec2.zero,
        t := Flt.fin 0, m := Flt.fin mq, inv_m := Flt.fin (1/mq),
        i := Flt.fin (1/2 * mq * r * r), inv_i := Flt.fin (1/(1/2 * mq * r * r)),
        material := Material.default, shape := Shape.Circle (Flt.fin r),
        is_static := false } := by
  have hI : (0:ℚ) < 1/2 * mq * r * r := by positivity
  have h1 : Flt.blt (Flt.fin 0) (Flt.fin mq) = true := by simp [hmq]
  have h2 : Flt.blt (Flt.fin 0) (Flt.fin (1/2 * mq * r * r)) = true := by
    simp only [Flt.blt_fin, decide_eq_true_eq]
    exact hI
  simp only [Body.new_dynamic, h1, Flt.mul_fin, if_true]
  rw [Flt.div_fin _ _ (ne_of_gt hmq)]
  simp only [h2, if_true]
  rw [Flt.div_fin _ _ (ne_of_gt hI)]

theorem ratSqrt_zero : Rat.sqrt 0 = 0 := by
  calc Rat.sqrt 0 = Rat.sqrt (0 * 0) := by norm_num
  _ = 0 := ratSqrt_mul_self 0 le_rfl

theorem normalized_zero : Vec2.normalized ⟨Flt.fin 0, Flt.fin 0⟩ = Vec2.zero := by
  unfold Vec2.normalized Vec2.len Vec2.len2 Vec2.dot
  norm_num [Flt.sqrt, ratSqrt_zero, Flt.blt]

/-- `circle_circle` on two overlapping finite circles whose center distance
`s` is an exact rational (the non-degenerate branch, `s` above the 1e-5
threshold), in closed form. -/
theorem circle_circle_some_eval (i j : ℕ) (a b : Body) (ra rb ax ay bx qy s : ℚ)
    (ha : a.shape = Shape.Circle (Flt.fin ra)) (hb : b.shape = Shape.Circle (Flt.fin rb))
    (hpa : a.p = ⟨Flt.fin ax, Flt.fin ay⟩) (hpb : b.p = ⟨Flt.fin bx, Flt.fin qy⟩)
    (hs0 : 0 ≤ s) (hss : s * s = (bx - ax) * (bx - ax) + (qy - ay) * (qy - ay))
    (hlt : s * s < (ra + rb) * (ra + rb)) (hthr : 1/100000 < s) :
    circle_circle i j a b = some ⟨i, j,
      { point := Vec2.add a.p
          ((⟨Flt.fin ((bx - ax) / s), Flt.fin ((qy - ay) / s)⟩ : Vec2).mul (Flt.fin ra)),
        normal := ⟨Flt.fin ((bx - ax) / s), Flt.fin ((qy - ay) / s)⟩,
        penetration := Flt.fin (ra + rb - s) }⟩ := by
  have hdist2 : (b.p.sub a.p).len2
      = Flt.fin ((bx - ax) * (bx - ax) + (qy - ay) * (qy - ay)) := by
    rw [hpa, hpb]
    simp [Vec2.sub, Vec2.len2, Vec2.dot]
  have hsne : s ≠ 0 := by positivity
  unfold circle_circle
  rw [ha, hb]
  simp only []
  rw [hdist2, ← hss]
  rw [if_neg (by simp only [Flt.mul_fin, Flt.add_fin, Flt.ble_fin]; simpa using not_le.mpr hlt)]
  rw [Flt.sqrt_fin _ (mul_self_nonneg s), ratSqrt_mul_self s hs0]
  rw [if_pos (by simpa using hthr)]
  rw [hpa, hpb]
  simp [Vec2.sub, Vec2.div, Vec2.add, Vec2.mul, Flt.div_fin _ _ hsne, hss]

/-- C5: two dynamic circle bodies of equal positive mass `m`, approaching
head-on along the line of centers with speeds `s` and `-s`, restitution 1 and
friction 0 on both, overlap at center distance `d`: a single contact
resolution on the manifold produced by `circle_circle` exactly reverses both
linear velocities and leaves both angular velocities at zero. -/
theorem c5_equal_mass_head_on_reverses (d s m rA rB : ℚ)
    (hd1 : (1/100000 : ℚ) < d) (hd2 : d < rA + rB) (hm : 0 < m) (hs : 0 < s)
    (hrA : 0 < rA) (hrB : 0 < rB) :
    ∃ mfd : Manifold,
      circle_circle 0 1 (headOnA rA m s) (headOnB rB m s d) = some mfd ∧
      (solveContactPair (headOnA rA m s) (headOnB rB m s d) mfd.contact).1.v
        = ⟨Flt.fin (-s), Flt.fin 0⟩ ∧
      (solveContactPair (headOnA rA m s) (headOnB rB m s d) mfd.contact).2.v
        = ⟨Flt.fin s, Flt.fin 0⟩ ∧
      (solveContactPair (headOnA rA m s) (headOnB rB m s d) mfd.contact).1.w = Flt.fin 0 ∧
      (solveContactPair (headOnA rA m s) (headOnB rB m s d) mfd.contact).2.w = Flt.fin 0 := by
  have hd0 : (0:ℚ) < d := lt_trans (by norm_num) hd1
  have hm0 : m ≠ 0 := ne_of_gt hm
  have hA : headOnA rA m s =
      { p := ⟨Flt.fin 0, Flt.fin 0⟩, a := Flt.fin 0, v := ⟨Flt.fin s, Flt.fin 0⟩,
        w := Flt.fin 0, f := Vec2.zero, t := Flt.fin 0, m := Flt.fin m,
        inv_m := Flt.fin (1/m), i := Flt.fin (1/2 * m * rA * rA),
        inv_i := Flt.fin (1/(1/2 * m * rA * rA)),
        material := ⟨Flt.fin 1, Flt.fin 0⟩, shape := Shape.Circle (Flt.fin rA),
        is_static := false } := by
    unfold headOnA
    rw [new_dynamic_circle_pos _ _ _ hrA hm]
  have hB : headOnB rB m s d =
      { p := ⟨Flt.fin d, Flt.fin 0⟩, a := Flt.fin 0, v := ⟨Flt.fin (-s), Flt.fin 0⟩,
        w := Flt.fin 0, f := Vec2.zero, t := Flt.fin 0, m := Flt.fin m,
        inv_m := Flt.fin (1/m), i := Flt.fin (1/2 * m * rB * rB),
        inv_i := Flt.fin (1/(1/2 * m * rB * rB)),
        material := ⟨Flt.fin 1, Flt.fin 0⟩, shape := Shape.Circle (Flt.fin rB),
        is_static := false } := by
    unfold headOnB
    rw [new_dynamic_circle_pos _ _ _ hrB hm]
  have hAp : (headOnA rA m s).p = ⟨Flt.fin 0, Flt.fin 0⟩ := by rw [hA]
  have hAv : (headOnA rA m s).v = ⟨Flt.fin s, Flt.fin 0⟩ := by rw [hA]
  have hAw : (headOnA rA m s).w = Flt.fin 0 := by rw [hA]
  have hAim : (headOnA rA m s).inv_m = Flt.fin (1/m) := by rw [hA]
  have hAii : (headOnA rA m s).inv_i = Flt.fin (1/(1/2 * m * rA * rA)) := by rw [hA]
  have hAmat : (headOnA rA m s).material = ⟨Flt.fin 1, Flt.fin 0⟩ := by rw [hA]
  have hAsh : (headOnA rA m s).shape = Shape.Circle (Flt.fin rA) := by rw [hA]
  have hBp : (headOnB rB m s d).p = ⟨Flt.fin d, Flt.fin 0⟩ := by rw [hB]
  have hBv : (headOnB rB m s d).v = ⟨Flt.fin (-s), Flt.fin 0⟩ := by rw [hB]
  have hBw : (headOnB rB m s d).w = Flt.fin 0 := by rw [hB]
  have hBim : (headOnB rB m s d).inv_m = Flt.fin (1/m) := by rw [hB]
  have hBii : (headOnB rB m s d).inv_i = Flt.fin (1/(1/2 * m * rB * rB)) := by rw [hB]
  have hBmat : (headOnB rB m s d).material = ⟨Flt.fin 1, Flt.fin 0⟩ := by rw [hB]
  have hBsh : (headOnB rB m s d).shape = Shape.Circle (Flt.fin rB) := by rw [hB]
  have hccraw := circle_circle_some_eval 0 1 (headOnA rA m s) (headOnB rB m s d)
    rA rB 0 0 d 0 d hAsh hBsh hAp hBp (le_of_lt hd0) (by ring) (by nlinarith) hd1
  have hcc : circle_circle 0 1 (headOnA rA m s) (headOnB rB m s d)
      = some ⟨0, 1, headOnContact rA rB d⟩ := by
    rw [hccraw]
    unfold headOnContact
    norm_num [Vec2.add, Vec2.mul, hAp, div_self (ne_of_gt hd0)]
  have hcpt : (headOnContact rA rB d).point = ⟨Flt.fin rA, Flt.fin 0⟩ := rfl
  have hcn : (headOnContact rA rB d).normal = ⟨Flt.fin 1, Flt.fin 0⟩ := rfl
  have hvn : velAlongNormal (headOnA rA m s) (headOnB rB m s d) (headOnContact rA rB d)
      = Flt.fin (-(2*s)) := by
    simp only [velAlongNormal, contactRv, contactRa, contactRb, cross_sv, Vec2.sub, Vec2.add,
      Vec2.dot, hAp, hAv, hAw, hBp, hBv, hBw, hcpt, hcn, Flt.add_fin, Flt.sub_fin,
      Flt.mul_fin, Flt.neg_fin]
    congr 1
    ring
  have hsepF : Flt.blt (Flt.fin 0)
      (velAlongNormal (headOnA rA m s) (headOnB rB m s d) (headOnContact rA rB d)) = false := by
    rw [hvn]
    simp only [Flt.blt_fin, decide_eq_false_iff_not]
    exact not_lt.mpr (by linarith)
  have he : restitutionMin (headOnA rA m s) (headOnB rB m s d) = Flt.fin 1 := by
    unfold restitutionMin
    rw [hAmat, hBmat]
    simp
  have hk : invMassSumN (headOnA rA m s) (headOnB rB m s d) (headOnContact rA rB d)
      = Flt.fin (2/m) := by
    simp only [invMassSumN, contactRa, contactRb, Vec2.sub, Vec2.cross, hAp, hBp, hcpt, hcn,
      hAim, hBim, hAii, hBii, Flt.add_fin, Flt.sub_fin, Flt.mul_fin]
    congr 1
    field_simp
    ring
  have hknF : Flt.beq (invMassSumN (headOnA rA m s) (headOnB rB m s d) (headOnContact rA rB d))
      (Flt.fin 0) = false := by
    rw [hk]
    simp only [Flt.beq_fin, decide_eq_false_iff_not]
    exact div_ne_zero (by norm_num) hm0
  have hj : jScalar (headOnA rA m s) (headOnB rB m s d) (headOnContact rA rB d)
      = Flt.fin (2*s*m) := by
    unfold jScalar
    rw [hvn, hk, he]
    simp only [Flt.add_fin, Flt.neg_fin, Flt.mul_fin]
    rw [Flt.div_fin _ _ (div_ne_zero (by norm_num) hm0)]
    congr 1
    field_simp
    ring
  have hrv : contactRv (headOnA rA m s) (headOnB rB m s d) (headOnContact rA rB d)
      = ⟨Flt.fin (-(2*s)), Flt.fin 0⟩ := by
    simp only [contactRv, contactRa, contactRb, cross_sv, Vec2.sub, Vec2.add, hAp, hAv, hAw,
      hBp, hBv, hBw, hcpt, Flt.add_fin, Flt.sub_fin, Flt.mul_fin, Flt.neg_fin]
    simp only [Vec2.mk.injEq, Flt.fin.injEq]
    constructor <;> ring
  have htan : tangentDir (headOnA rA m s) (headOnB rB m s d) (headOnContact rA rB d)
      = Vec2.zero := by
    unfold tangentDir
    rw [hrv, hcn]
    norm_num [Vec2.dot, Vec2.mul, Vec2.sub, normalized_zero]
  have hkt : invMassSumT (headOnA rA m s) (headOnB rB m s d) (headOnContact rA rB d)
      = Flt.fin (2/m) := by
    simp only [invMassSumT, htan, contactRa, contactRb, Vec2.sub, Vec2.cross, Vec2.zero,
      hAp, hBp, hcpt, hAim, hBim, hAii, hBii, Flt.add_fin, Flt.sub_fin, Flt.mul_fin]
    congr 1
    field_simp
    ring
  have hktF : Flt.beq (invMassSumT (headOnA rA m s) (headOnB rB m s d) (headOnContact rA rB d))
      (Flt.fin 0) = false := by
    rw [hkt]
    simp only [Flt.beq_fin, decide_eq_false_iff_not]
    exact div_ne_zero (by norm_num) hm0
  have hjt : jtScalar (headOnA rA m s) (headOnB rB m s d) (headOnContact rA rB d)
      = Flt.fin 0 := by
    unfold jtScalar
    rw [hrv, htan, hkt]
    simp only [Vec2.dot, Vec2.zero, Flt.mul_fin, Flt.add_fin, Flt.neg_fin]
    rw [Flt.div_fin _ _ (div_ne_zero (by norm_num) hm0)]
    congr 1
    norm_num
  have hmu : muCoef (headOnA rA m s) (headOnB rB m s d) = Flt.fin 0 := by
    unfold muCoef
    rw [hAmat, hBmat]
    show Flt.sqrt (Flt.mul (Flt.fin 0) (Flt.fin 0)) = _
    rw [Flt.mul_fin, Flt.sqrt_fin _ (by norm_num)]
    norm_num [ratSqrt_zero]
  have hjtc : jtClamped (headOnA rA m s) (headOnB rB m s d) (headOnContact rA rB d)
      = Flt.fin 0 := by
    unfold jtClamped
    rw [hjt, hmu, hj]
    simp [Flt.clamp, Flt.blt]
  refine ⟨⟨0, 1, headOnContact rA rB d⟩, hcc, ?_, ?_, ?_, ?_⟩
  all_goals dsimp only
  all_goals unfold solveContactPair
  all_goals rw [if_neg (by simp [hsepF]), if_neg (by simp [hknF]), if_neg (by simp [hktF])]
  · simp only [htan, hjtc, hj, hcn, hAv, hAim, Vec2.sub, Vec2.mul, Vec2.zero, Flt.mul_fin,
      Flt.sub_fin, Vec2.mk.injEq, Flt.fin.injEq]
    constructor <;> (field_simp; try ring)
  · simp only [htan, hjtc, hj, hcn, hBv, hBim, Vec2.add, Vec2.mul, Vec2.zero, Flt.mul_fin,
      Flt.add_fin, Vec2.mk.injEq, Flt.fin.injEq]
    constructor <;> (field_simp; try ring)
  · simp only [htan, hjtc, hj, hcn, hcpt, hAw, hAii, hAp, contactRa, Vec2.sub, Vec2.mul,
      Vec2.zero, Vec2.cross, Flt.mul_fin, Flt.sub_fin, Flt.fin.injEq]
    ring
  · simp only [htan, hjtc, hj, hcn, hcpt, hBw, hBii, hBp, contactRb, Vec2.sub, Vec2.add,
      Vec2.mul, Vec2.zero, Vec2.cross, Flt.mul_fin, Flt.sub_fin, Flt.add_fin, Flt.fin.injEq]
    ring

/-- C5 witness: unit circles of mass 1, center distance 1, speed 1. -/
theorem c5_witness_concrete :
    ∃ mfd : Manifold,
      circle_circle 0 1 (headOnA 1 1 1) (headOnB 1 1 1 1) = some mfd ∧
      (solveContactPair (headOnA 1 1 1) (headOnB 1 1 1 1) mfd.contact).1.v
        = ⟨Flt.fin (-1), Flt.fin 0⟩ ∧
      (solveContactPair (headOnA 1 1 1) (headOnB 1 1 1 1) mfd.contact).2.v
        = ⟨Flt.fin 1, Flt.fin 0⟩ ∧
      (solveContactPair (headOnA 1 1 1) (headOnB 1 1 1 1) mfd.contact).1.w = Flt.fin 0 ∧
      (solveContactPair (headOnA 1 1 1) (headOnB 1 1 1 1) mfd.contact).2.w = Flt.fin 0 :=
  c5_equal_mass_head_on_reverses 1 1 1 1 1 (by norm_num) (by norm_num) (by norm_num)
    (by norm_num) (by norm_num) (by norm_num)

theorem Flt.isFin_of_isNN {x : Flt} (h : x.isNN = true) : x.isFin = true := by
  cases x <;> simp_all [Flt.isNN, Flt.isFin]

theorem Flt.isFin_div {x y : Flt} (hx : x.isFin = true) (hy : y.isFin = true)
    (hne : Flt.beq y (Flt.fin 0) = false) : (Flt.div x y).isFin = true := by
  obtain ⟨a, rfl⟩ := Flt.isFin_elim hx
  obtain ⟨b, rfl⟩ := Flt.isFin_elim hy
  have hb : b ≠ 0 := by simpa using hne
  rw [Flt.div_fin _ _ hb]
  rfl

theorem Flt.isFin_fmin {x y : Flt} (hx : x.isFin = true) (hy : y.isFin = true) :
    (Flt.fmin x y).isFin = true := by
  obtain ⟨a, rfl⟩ := Flt.isFin_elim hx
  obtain ⟨b, rfl⟩ := Flt.isFin_elim hy
  simp

theorem Flt.isNN_mul2 {x y : Flt} (hx : x.isNN = true) (hy : y.isNN = true) :
    (Flt.mul x y).isNN = true := by
  obtain ⟨a, rfl, ha⟩ := Flt.isNN_elim hx
  obtain ⟨b, rfl, hb⟩ := Flt.isNN_elim hy
  simp [Flt.isNN]
  exact mul_nonneg ha hb

theorem Flt.isNN_sqrt {x : Flt} (hx : x.isNN = true) : (Flt.sqrt x).isNN = true := by
  obtain ⟨q, rfl, hq⟩ := Flt.isNN_elim hx
  rw [Flt.sqrt_fin _ hq]
  simp [Flt.isNN, Rat.sqrt_nonneg]

theorem Flt.add_fin_zero (x : Flt) : Flt.add x (Flt.fin 0) = x := by
  cases x <;> simp [Flt.add]

theorem Vec2.mulF_zero {v : Vec2} (hv : Vec2OKb v = true) :
    v.mul (Flt.fin 0) = ⟨Flt.fin 0, Flt.fin 0⟩ := by
  obtain ⟨x, y, rfl⟩ := Vec2OKb_elim hv
  simp [Vec2.mul]

theorem Vec2.sub_zero_vec (v : Vec2) : v.sub ⟨Flt.fin 0, Flt.fin 0⟩ = v := by
  simp [Vec2.sub, Flt.sub_fin_zero]

theorem Vec2.add_zero_vec (v : Vec2) : v.add ⟨Flt.fin 0, Flt.fin 0⟩ = v := by
  simp [Vec2.add, Flt.add_fin_zero]

theorem BodyOKb_parts {b : Body} (h : BodyOKb b = true) :
    Vec2OKb b.p = true ∧ b.a.isFin = true ∧ Vec2OKb b.v = true ∧ b.w.isFin = true ∧
    Vec2OKb b.f = true ∧ b.t.isFin = true ∧ b.m.isFin = true ∧ b.inv_m.isNN = true ∧
    b.i.isFin = true ∧ b.inv_i.isNN = true ∧ b.material.restitution.isNN = true ∧
    b.material.friction.isNN = true ∧ ShapeOKb b.shape = true := by
  simp only [BodyOKb, MaterialOKb, Bool.and_eq_true, and_assoc] at h
  exact h

theorem ContactOKb_parts {c : Contact} (h : ContactOKb c = true) :
    Vec2OKb c.point = true ∧ Vec2OKb c.normal = true ∧ c.penetration.isFin = true := by
  simp only [ContactOKb, Bool.and_eq_true, and_assoc] at h
  exact h

theorem BodyOKb_updateVW {bod : Body} (h : BodyOKb bod = true) {v' : Vec2} {w' : Flt}
    (hv : Vec2OKb v' = true) (hw : w'.isFin = true) :
    BodyOKb { bod with v := v', w := w' } = true := by
  simp only [BodyOKb, MaterialOKb, Bool.and_eq_true, and_assoc] at h ⊢
  obtain ⟨h1, h2, h3, h4, h5, h6, h7, h8, h9, h10, h11, h12, h13⟩ := h
  exact ⟨h1, h2, hv, hw, h5, h6, h7, h8, h9, h10, h11, h12, h13⟩

/-- The impulse solver keeps bodies well-formed and never changes the linear
velocity of a zero-inverse-mass body. -/
theorem solvePair_main (a b : Body) (c : Contact)
    (hA : BodyOKb a = true) (hB : BodyOKb b = true) (hC : ContactOKb c = true) :
    BodyOKb (solveContactPair a b c).1 = true ∧
    BodyOKb (solveContactPair a b c).2 = true ∧
    (a.inv_m = Flt.fin 0 → (solveContactPair a b c).1.v = a.v) ∧
    (b.inv_m = Flt.fin 0 → (solveContactPair a b c).2.v = b.v) := by
  obtain ⟨hap, haa, hav, haw, haf, hat, ham, haim, hai, haii, haer, hafr, hash⟩ :=
    BodyOKb_parts hA
  obtain ⟨hbp, hba, hbv, hbw, hbf, hbt, hbm, hbim, hbi, hbii, hber, hbfr, hbsh⟩ :=
    BodyOKb_parts hB
  obtain ⟨hcp, hcn, hcpen⟩ := ContactOKb_parts hC
  have hraOK : Vec2OKb (contactRa a c) = true := Vec2OKb_sub hcp hap
  have hrbOK : Vec2OKb (contactRb b c) = true := Vec2OKb_sub hcp hbp
  have hrvOK : Vec2OKb (contactRv a b c) = true :=
    Vec2OKb_sub (Vec2OKb_add hbv (Vec2OKb_crossSv hbw hrbOK))
      (Vec2OKb_add hav (Vec2OKb_crossSv haw hraOK))
  have htanOK : Vec2OKb (tangentDir a b c) = true :=
    Vec2OKb_normalized (Vec2OKb_sub hrvOK (Vec2OKb_mulF hcn (Flt.isFin_dot hrvOK hcn)))
  have hvnOK : (velAlongNormal a b c).isFin = true := Flt.isFin_dot hrvOK hcn
  have heOK : (restitutionMin a b).isFin = true :=
    Flt.isFin_fmin (Flt.isFin_of_isNN haer) (Flt.isFin_of_isNN hber)
  have hkOK : (invMassSumN a b c).isFin = true :=
    Flt.isFin_add (Flt.isFin_add
        (Flt.isFin_add (Flt.isFin_of_isNN haim) (Flt.isFin_of_isNN hbim))
        (Flt.isFin_mul
          (Flt.isFin_mul (Flt.isFin_crossVec hraOK hcn) (Flt.isFin_crossVec hraOK hcn))
          (Flt.isFin_of_isNN haii)))
      (Flt.isFin_mul
        (Flt.isFin_mul (Flt.isFin_crossVec hrbOK hcn) (Flt.isFin_crossVec hrbOK hcn))
        (Flt.isFin_of_isNN hbii))
  have hktOK : (invMassSumT a b c).isFin = true :=
    Flt.isFin_add (Flt.isFin_add
        (Flt.isFin_add (Flt.isFin_of_isNN haim) (Flt.isFin_of_isNN hbim))
        (Flt.isFin_mul
          (Flt.isFin_mul (Flt.isFin_crossVec hraOK htanOK) (Flt.isFin_crossVec hraOK htanOK))
          (Flt.isFin_of_isNN haii)))
      (Flt.isFin_mul
        (Flt.isFin_mul (Flt.isFin_crossVec hrbOK htanOK) (Flt.isFin_crossVec hrbOK htanOK))
        (Flt.isFin_of_isNN hbii))
  have hmuOK : (muCoef a b).isFin = true :=
    Flt.isFin_of_isNN (Flt.isNN_sqrt (Flt.isNN_mul2 hafr hbfr))
  unfold solveContactPair
  split
  · exact ⟨hA, hB, fun _ => rfl, fun _ => rfl⟩
  · split
    · exact ⟨hA, hB, fun _ => rfl, fun _ => rfl⟩
    · next hkn =>
      have hknF : Flt.beq (invMassSumN a b c) (Flt.fin 0) = false := by simpa using hkn
      have hjOK : (jScalar a b c).isFin = true :=
        Flt.isFin_div
          (Flt.isFin_mul (Flt.isFin_neg (Flt.isFin_add rfl heOK)) hvnOK) hkOK hknF
      have himpOK : Vec2OKb (c.normal.mul (jScalar a b c)) = true := Vec2OKb_mulF hcn hjOK
      have ha1v : Vec2OKb (a.v.sub ((c.normal.mul (jScalar a b c)).mul a.inv_m)) = true :=
        Vec2OKb_sub hav (Vec2OKb_mulF himpOK (Flt.isFin_of_isNN haim))
      have hb1v : Vec2OKb (b.v.add ((c.normal.mul (jScalar a b c)).mul b.inv_m)) = true :=
        Vec2OKb_add hbv (Vec2OKb_mulF himpOK (Flt.isFin_of_isNN hbim))
      have ha1w : (Flt.sub a.w
          (Flt.mul a.inv_i ((contactRa a c).cross (c.normal.mul (jScalar a b c))))).isFin = true :=
        Flt.isFin_sub haw (Flt.isFin_mul (Flt.isFin_of_isNN haii)
          (Flt.isFin_crossVec hraOK himpOK))
      have hb1w : (Flt.add b.w
          (Flt.mul b.inv_i ((contactRb b c).cross (c.normal.mul (jScalar a b c))))).isFin = true :=
        Flt.isFin_add hbw (Flt.isFin_mul (Flt.isFin_of_isNN hbii)
          (Flt.isFin_crossVec hrbOK himpOK))
      split
      · refine ⟨BodyOKb_updateVW hA ha1v ha1w, BodyOKb_updateVW hB hb1v hb1w, ?_, ?_⟩
        · intro h0
          show a.v.sub ((c.normal.mul (jScalar a b c)).mul a.inv_m) = a.v
          rw [h0, Vec2.mulF_zero himpOK, Vec2.sub_zero_vec]
        · intro h0
          show b.v.add ((c.normal.mul (jScalar a b c)).mul b.inv_m) = b.v
          rw [h0, Vec2.mulF_zero himpOK, Vec2.add_zero_vec]
      · next hkt =>
        have hktF : Flt.beq (invMassSumT a b c) (Flt.fin 0) = false := by simpa using hkt
        have hjtOK : (jtScalar a b c).isFin = true :=
          Flt.isFin_div (Flt.isFin_neg (Flt.isFin_dot hrvOK htanOK)) hktOK hktF
        have hjcOK : (jtClamped a b c).isFin = true :=
          Flt.clamp_fin_isFin _ _ _ hjtOK
            (Flt.isFin_mul (Flt.isFin_neg hmuOK) hjOK) (Flt.isFin_mul hmuOK hjOK)
        have hfiOK : Vec2OKb ((tangentDir a b c).mul (jtClamped a b c)) = true :=
          Vec2OKb_mulF htanOK hjcOK
        have ha2v : Vec2OKb ((a.v.sub ((c.normal.mul (jScalar a b c)).mul a.inv_m)).sub
            (((tangentDir a b c).mul (jtClamped a b c)).mul a.inv_m)) = true :=
          Vec2OKb_sub ha1v (Vec2OKb_mulF hfiOK (Flt.isFin_of_isNN haim))
        have hb2v : Vec2OKb ((b.v.add ((c.normal.mul (jScalar a b c)).mul b.inv_m)).add
            (((tangentDir a b c).mul (jtClamped a b c)).mul b.inv_m)) = true :=
          Vec2OKb_add hb1v (Vec2OKb_mulF hfiOK (Flt.isFin_of_isNN hbim))
        have ha2w : (Flt.sub (Flt.sub a.w
            (Flt.mul a.inv_i ((contactRa a c).cross (c.normal.mul (jScalar a b c)))))
            (Flt.mul a.inv_i ((contactRa a c).cross
              ((tangentDir a b c).mul (jtClamped a b c))))).isFin = true :=
          Flt.isFin_sub ha1w (Flt.isFin_mul (Flt.isFin_of_isNN haii)
            (Flt.isFin_crossVec hraOK hfiOK))
        have hb2w : (Flt.add (Flt.add b.w
            (Flt.mul b.inv_i ((contactRb b c).cross (c.normal.mul (jScalar a b c)))))
            (Flt.mul b.inv_i ((contactRb b c).cross
              ((tangentDir a b c).mul (jtClamped a b c))))).isFin = true :=
          Flt.isFin_add hb1w (Flt.isFin_mul (Flt.isFin_of_isNN hbii)
            (Flt.isFin_crossVec hrbOK hfiOK))
        refine ⟨BodyOKb_updateVW hA ha2v ha2w, BodyOKb_updateVW hB hb2v hb2w, ?_, ?_⟩
        · intro h0
          show (a.v.sub ((c.normal.mul (jScalar a b c)).mul a.inv_m)).sub
            (((tangentDir a b c).mul (jtClamped a b c)).mul a.inv_m) = a.v
          rw [h0, Vec2.mulF_zero himpOK, Vec2.sub_zero_vec, Vec2.mulF_zero hfiOK,
            Vec2.sub_zero_vec]
        · intro h0
          show (b.v.add ((c.normal.mul (jScalar a b c)).mul b.inv_m)).add
            (((tangentDir a b c).mul (jtClamped a b c)).mul b.inv_m) = b.v
          rw [h0, Vec2.mulF_zero himpOK, Vec2.add_zero_vec, Vec2.mulF_zero hfiOK,
            Vec2.add_zero_vec]

theorem Flt.isNN_len2 {v : Vec2} (hv : Vec2OKb v = true) : v.len2.isNN = true := by
  obtain ⟨x, y, rfl⟩ := Vec2OKb_elim hv
  show (Flt.fin (x * x + y * y)).isNN = true
  simp [Flt.isNN]
  exact add_nonneg (mul_self_nonneg x) (mul_self_nonneg y)

theorem Vec2OKb_divF {v : Vec2} {s : ℚ} (hv : Vec2OKb v = true) (hs : s ≠ 0) :
    Vec2OKb (v.div (Flt.fin s)) = true := by
  obtain ⟨x, y, rfl⟩ := Vec2OKb_elim hv
  simp [Vec2.div, Flt.div_fin _ _ hs, Vec2OKb]

theorem circle_circle_contact_OK (i j : ℕ) (a b : Body) (mfd : Manifold)
    (hA : BodyOKb a = true) (hB : BodyOKb b = true)
    (h : circle_circle i j a b = some mfd) : ContactOKb mfd.contact = true := by
  obtain ⟨hap, -, -, -, -, -, -, -, -, -, -, -, hash⟩ := BodyOKb_parts hA
  obtain ⟨hbp, -, -, -, -, -, -, -, -, -, -, -, hbsh⟩ := BodyOKb_parts hB
  unfold circle_circle at h
  cases ha : a.shape with
  | Box hx hy => rw [ha] at h; cases h
  | Circle ra =>
    cases hb : b.shape with
    | Box hx hy => rw [ha, hb] at h; cases h
    | Circle rb =>
      rw [ha, hb] at h
      simp only [] at h
      rw [ha] at hash
      rw [hb] at hbsh
      simp only [ShapeOKb] at hash hbsh
      obtain ⟨raq, rfl⟩ := Flt.isFin_elim hash
      obtain ⟨rbq, rfl⟩ := Flt.isFin_elim hbsh
      obtain ⟨q2, hd2, hq2⟩ := Flt.isNN_elim (Flt.isNN_len2 (Vec2OKb_sub hbp hap))
      rw [hd2] at h
      split at h
      · cases h
      · rw [Flt.sqrt_fin _ hq2] at h
        by_cases hth : (1/100000 : ℚ) < Rat.sqrt q2
        · rw [if_pos (by simp only [Flt.blt_fin, decide_eq_true_eq]; exact hth)] at h
          obtain rfl := (Option.some.inj h).symm
          have hLne : Rat.sqrt q2 ≠ 0 :=
            (ne_of_gt (lt_trans (by norm_num) hth))
          have hnormOK : Vec2OKb ((b.p.sub a.p).div (Flt.fin (Rat.sqrt q2))) = true :=
            Vec2OKb_divF (Vec2OKb_sub hbp hap) hLne
          simp only [ContactOKb, Bool.and_eq_true]
          exact ⟨⟨Vec2OKb_add hap (Vec2OKb_mulF hnormOK rfl), hnormOK⟩,
            Flt.isFin_sub (Flt.isFin_add rfl rfl) rfl⟩
        · rw [if_neg (by simp only [Flt.blt_fin, decide_eq_true_eq]; exact hth)] at h
          obtain rfl := (Option.some.inj h).symm
          simp only [ContactOKb, Bool.and_eq_true]
          exact ⟨⟨Vec2OKb_add hap (Vec2OKb_mulF rfl rfl), rfl⟩,
            Flt.isFin_sub (Flt.isFin_add rfl rfl) rfl⟩

theorem getD_mem {α : Type} (l : List α) (i : ℕ) (d : α) (h : i < l.length) :
    l.getD i d ∈ l := by
  induction l generalizing i with
  | nil => simp at h
  | cons hd tl ih =>
      cases i with
      | zero => exact List.mem_cons_self hd tl
      | succ n => exact List.mem_cons_of_mem hd (ih n (by simpa using h))

theorem gather_contact_OK {bodies : List Body} (hall : ∀ x ∈ bodies, BodyOKb x = true)
    {mfd : Manifold} (hm : mfd ∈ gatherContacts bodies) : ContactOKb mfd.contact = true := by
  unfold gatherContacts at hm
  rw [List.mem_flatMap] at hm
  obtain ⟨i, hi, hm⟩ := hm
  rw [List.mem_filterMap] at hm
  obtain ⟨j, hj, hm⟩ := hm
  rw [List.mem_range] at hi
  rw [List.mem_range'_1] at hj
  split at hm
  · cases hm
  · exact circle_circle_contact_OK i j _ _ mfd
      (hall _ (getD_mem _ _ _ hi))
      (hall _ (getD_mem _ _ _ (by omega))) hm

theorem dummy_OK : BodyOKb Body.dummy = true := by
  norm_num [BodyOKb, Vec2OKb, MaterialOKb, ShapeOKb, Flt.isFin, Flt.isNN, Body.dummy,
    Body.new_static, Material.default, Vec2.zero]

theorem getD_OK {bodies : List Body} (hall : ∀ x ∈ bodies, BodyOKb x = true) (k : ℕ) :
    BodyOKb (bodies.getD k Body.dummy) = true := by
  by_cases hk : k < bodies.length
  · exact hall _ (getD_mem _ _ _ hk)
  · rw [ListLemmas.getD_eq_default _ _ _ (by omega)]
    exact dummy_OK

theorem solveWorld_preserve (bodies : List Body) (mfd : Manifold) (k : ℕ)
    (hall : ∀ x ∈ bodies, BodyOKb x = true) (hC : ContactOKb mfd.contact = true) :
    (∀ x ∈ solveContactWorld bodies mfd, BodyOKb x = true) ∧
    ((bodies.getD k Body.dummy).inv_m = Flt.fin 0 →
      ((solveContactWorld bodies mfd).getD k Body.dummy).v
        = (bodies.getD k Body.dummy).v) := by
  have hmain := solvePair_main (bodies.getD mfd.a Body.dummy) (bodies.getD mfd.b Body.dummy)
    mfd.contact (getD_OK hall mfd.a) (getD_OK hall mfd.b) hC
  constructor
  · intro x hx
    unfold solveContactWorld at hx
    rcases List.mem_or_eq_of_mem_set hx with hx2 | hx2
    · rcases List.mem_or_eq_of_mem_set hx2 with hx3 | hx3
      · exact hall _ hx3
      · rw [hx3]
        exact hmain.1
    · rw [hx2]
      exact hmain.2.1
  · intro h0
    unfold solveContactWorld
    by_cases hlen : k < bodies.length
    · by_cases hb : k = mfd.b
      · subst hb
        rw [ListLemmas.getD_set_self _ _ _ _ (by simpa using hlen)]
        exact hmain.2.2.2 h0
      · rw [ListLemmas.getD_set_ne _ _ _ _ _ (fun hh => hb hh.symm)]
        by_cases ha : k = mfd.a
        · subst ha
          rw [ListLemmas.getD_set_self _ _ _ _ hlen]
          exact hmain.2.2.1 h0
        · rw [ListLemmas.getD_set_ne _ _ _ _ _ (fun hh => ha hh.symm)]
    · rw [ListLemmas.getD_eq_default bodies k Body.dummy (by omega),
        ListLemmas.getD_eq_default _ k Body.dummy]
      · simp only [List.length_set]
        omega

theorem solveFold_preserve (contacts : List Manifold) (bodies : List Body) (k : ℕ)
    (hall : ∀ x ∈ bodies, BodyOKb x = true)
    (hC : ∀ mfd ∈ contacts, ContactOKb mfd.contact = true) :
    (∀ x ∈ solvePass contacts bodies, BodyOKb x = true) ∧
    ((bodies.getD k Body.dummy).inv_m = Flt.fin 0 →
      ((solvePass contacts bodies).getD k Body.dummy).v
        = (bodies.getD k Body.dummy).v) := by
  induction contacts generalizing bodies with
  | nil => exact ⟨hall, fun _ => rfl⟩
  | cons hd tl ih =>
      have h1 := solveWorld_preserve bodies hd k hall (hC hd (by simp))
      have h2 := ih (solveContactWorld bodies hd) h1.1 (fun m hm => hC m (by simp [hm]))
      constructor
      · exact h2.1
      · intro h0
        have hinv : ((solveContactWorld bodies hd).getD k Body.dummy).inv_m = Flt.fin 0 := by
          rw [(solveWorld_frame bodies hd k).2.2.2.2.2.1]
          exact h0
        show ((solvePass tl (solveContactWorld bodies hd)).getD k Body.dummy).v = _
        rw [h2.2 hinv, h1.2 h0]

theorem iterateSolve_preserve (n : ℕ) (contacts : List Manifold) (bodies : List Body) (k : ℕ)
    (hall : ∀ x ∈ bodies, BodyOKb x = true)
    (hC : ∀ mfd ∈ contacts, ContactOKb mfd.contact = true) :
    (∀ x ∈ iterateSolve n contacts bodies, BodyOKb x = true) ∧
    ((bodies.getD k Body.dummy).inv_m = Flt.fin 0 →
      ((iterateSolve n contacts bodies).getD k Body.dummy).v
        = (bodies.getD k Body.dummy).v) := by
  induction n generalizing bodies with
  | zero => exact ⟨hall, fun _ => rfl⟩
  | succ j ih =>
      have h1 := solveFold_preserve contacts bodies k hall hC
      have h2 := ih (solvePass contacts bodies) h1.1
      constructor
      · exact h2.1
      · intro h0
        have hinv : ((solvePass contacts bodies).getD k Body.dummy).inv_m = Flt.fin 0 := by
          rw [(solvePass_frame contacts bodies k).2.2.2.2.2.1]
          exact h0
        show ((iterateSolve j contacts (solvePass contacts bodies)).getD k Body.dummy).v = _
        rw [h2.2 hinv, h1.2 h0]

theorem integrateForce_OK {g : Vec2} {dt : Flt} {b : Body}
    (hb : BodyOKb b = true) (hg : Vec2OKb g = true) (hdt : dt.isFin = true) :
    BodyOKb (integrateForceBody g dt b) = true := by
  unfold integrateForceBody
  split
  · exact hb
  · obtain ⟨h1, h2, h3, h4, h5, h6, h7, h8, h9, h10, h11, h12, h13⟩ := BodyOKb_parts hb
    simp only [BodyOKb, MaterialOKb, Bool.and_eq_true, and_assoc]
    refine ⟨h1, h2, ?_, ?_, ?_, rfl, h7, h8, h9, h10, h11, h12, h13⟩
    · exact Vec2OKb_add h3 (Vec2OKb_mulF (Vec2OKb_add
        (Vec2OKb_mulF h5 (Flt.isFin_of_isNN h8)) hg) hdt)
    · exact Flt.isFin_add h4 (Flt.isFin_mul (Flt.isFin_mul h6 (Flt.isFin_of_isNN h10)) hdt)
    · exact Vec2OKb_zero

theorem pcWorld_static_p (bodies : List Body) (mfd : Manifold) (k : ℕ)
    (hst : (bodies.getD k Body.dummy).is_static = true) :
    ((positionalCorrectionWorld bodies mfd).getD k Body.dummy).p
      = (bodies.getD k Body.dummy).p := by
  unfold positionalCorrectionWorld
  by_cases hlen : k < bodies.length
  · by_cases hb : k = mfd.b
    · subst hb
      rw [ListLemmas.getD_set_self _ _ _ _ (by simpa using hlen)]
      rw [(pcPair_static _ _ _).2 hst]
    · rw [ListLemmas.getD_set_ne _ _ _ _ _ (fun hh => hb hh.symm)]
      by_cases ha : k = mfd.a
      · subst ha
        rw [ListLemmas.getD_set_self _ _ _ _ hlen]
        rw [(pcPair_static _ _ _).1 hst]
      · rw [ListLemmas.getD_set_ne _ _ _ _ _ (fun hh => ha hh.symm)]
  · rw [ListLemmas.getD_eq_default bodies k Body.dummy (by omega),
      ListLemmas.getD_eq_default _ k Body.dummy]
    simp only [List.length_set]
    omega

theorem pcFold_static_p (contacts : List Manifold) (bodies : List Body) (k : ℕ)
    (hst : (bodies.getD k Body.dummy).is_static = true) :
    ((contacts.foldl positionalCorrectionWorld bodies).getD k Body.dummy).p
      = (bodies.getD k Body.dummy).p := by
  induction contacts generalizing bodies with
  | nil => rfl
  | cons hd tl ih =>
      have hst2 : ((positionalCorrectionWorld bodies hd).getD k Body.dummy).is_static = true := by
        rw [(pcWorld_frame bodies hd k).2.2.2.2.2.2.2.2.2.2.2]
        exact hst
      show ((tl.foldl positionalCorrectionWorld (positionalCorrectionWorld bodies hd)).getD
        k Body.dummy).p = _
      rw [ih _ hst2, pcWorld_static_p bodies hd k hst]

theorem cc_deg : circle_circle 0 1 degA degB = some ⟨0, 1, degContact⟩ := by
  norm_num [degA, degB, degContact, Body.new_dynamic, circle_circle, Vec2.sub, Vec2.len2,
    Vec2.dot, Vec2.add, Vec2.mul, Vec2.div, Vec2.unitX, Vec2.zero, Flt.sqrt, Flt.div,
    Material.default, Nat.sqrt_one]

theorem degA_invm : degA.inv_m = Flt.fin 0 := by norm_num [degA, Body.new_dynamic]

theorem degB_invm : degB.inv_m = Flt.fin 0 := by norm_num [degB, Body.new_dynamic]

theorem deg_solvePair : solveContactPair degA degB degContact = (degA, degB) := by
  have hvn : velAlongNormal degA degB degContact = Flt.fin 0 := by
    norm_num [velAlongNormal, contactRv, contactRa, contactRb, cross_sv, Vec2.sub, Vec2.add,
      Vec2.dot, degA, degB, degContact, Body.new_dynamic, Vec2.zero, Flt.neg]
  have hk : Flt.beq (invMassSumN degA degB degContact) (Flt.fin 0) = true := by
    norm_num [invMassSumN, contactRa, contactRb, Vec2.sub, Vec2.cross, degA, degB, degContact,
      Body.new_dynamic, Vec2.zero, Flt.beq]
  unfold solveContactPair
  rw [if_neg (by rw [hvn]; norm_num), if_pos hk]

theorem deg_solveWorld :
    solveContactWorld [degA, degB] ⟨0, 1, degContact⟩ = [degA, degB] := by
  unfold solveContactWorld
  simp only [List.getD_cons_zero, List.getD_cons_succ]
  rw [deg_solvePair]
  rfl

theorem deg_ipA : integratePosBody (Flt.fin (1/60)) degA = degA := by
  unfold integratePosBody
  rw [if_neg (by norm_num [degA, Body.new_dynamic])]
  norm_num [degA, Body.new_dynamic, Vec2.add, Vec2.mul, Vec2.zero]

theorem deg_ipB : integratePosBody (Flt.fin (1/60)) degB = degB := by
  unfold integratePosBody
  rw [if_neg (by norm_num [degB, Body.new_dynamic])]
  norm_num [degB, Body.new_dynamic, Vec2.add, Vec2.mul, Vec2.zero]

/-- C1, counterexample to the literal claim: in a world of two overlapping
non-static circles built with mass 0 (so inverse mass 0), a full step sends
the first body's position from the origin to (NaN, NaN): positional
correction divides by the zero inverse-mass sum, so the position of a body
with inverse mass 0 is NOT left unchanged in every configuration. -/
theorem c1_counterexample_zero_inv_mass_position_changes :
    (degWorld.bodies.getD 0 Body.dummy).inv_m = Flt.fin 0 ∧
    (degWorld.bodies.getD 0 Body.dummy).p = ⟨Flt.fin 0, Flt.fin 0⟩ ∧
    ((degWorld.step (Flt.fin (1/60))).bodies.getD 0 Body.dummy).p = ⟨Flt.nan, Flt.nan⟩ ∧
    (⟨Flt.nan, Flt.nan⟩ : Vec2) ≠ ⟨Flt.fin 0, Flt.fin 0⟩ := by
  refine ⟨by simpa using degA_invm, ?_, ?_, ?_⟩
  · show degA.p = _
    norm_num [degA, Body.new_dynamic]
  · simp only [World.step, degWorld, List.map_cons, List.map_nil]
    rw [integrateForce_zero_inv_m _ _ _ degA_invm, integrateForce_zero_inv_m _ _ _ degB_invm]
    rw [gatherContacts_pair, if_neg (by norm_num [degA, degB, Body.new_dynamic]), cc_deg]
    show ((List.foldl positionalCorrectionWorld
      ((iterateSolve 1 [⟨0, 1, degContact⟩] [degA, degB]).map (integratePosBody (Flt.fin (1/60))))
      [⟨0, 1, degContact⟩]).getD 0 Body.dummy).p = _
    rw [show iterateSolve 1 [(⟨0, 1, degContact⟩ : Manifold)] [degA, degB] = [degA, degB] by
      simp only [iterateSolve, solvePass, List.foldl]
      exact deg_solveWorld]
    simp only [List.map_cons, List.map_nil]
    rw [deg_ipA, deg_ipB]
    simp only [List.foldl]
    unfold positionalCorrectionWorld
    simp only [List.getD_cons_zero, List.getD_cons_succ]
    norm_num [positionalCorrectionPair, degA, degB, degContact, Body.new_dynamic, Vec2.sub,
      Vec2.add, Vec2.mul, Flt.div, Flt.mul, Vec2.zero, Material.default, Flt.add, Flt.sub,
      Flt.neg, Flt.fmax, Flt.isNan, Flt.ble, List.set]
  · intro h
    have hx := congrArg Vec2.x h
    exact Flt.noConfusion hx

/-- C1, amended: for every body that is static and has inverse mass 0, a full
World.step call leaves its position and linear velocity unchanged, provided
every body in the world has finite fields with non-negative inverse masses,
inverse inertias, frictions and restitutions, finite shape radii, the
gravity vector is finite, and dt is finite. -/
theorem c1_amended_static_zero_inv_mass_unmoved (w : World) (dt : Flt) (k : ℕ)
    (hw : WorldOKb w = true) (hdt : dt.isFin = true)
    (hst : (w.bodies.getD k Body.dummy).is_static = true)
    (hm : (w.bodies.getD k Body.dummy).inv_m = Flt.fin 0) :
    ((w.step dt).bodies.getD k Body.dummy).p = (w.bodies.getD k Body.dummy).p ∧
    ((w.step dt).bodies.getD k Body.dummy).v = (w.bodies.getD k Body.dummy).v := by
  obtain ⟨hg, hall0⟩ : Vec2OKb w.gravity = true ∧ ∀ x ∈ w.bodies, BodyOKb x = true := by
    simp only [WorldOKb, Bool.and_eq_true, List.all_eq_true] at hw
    exact hw
  have hL1k : (w.bodies.map (integrateForceBody w.gravity dt)).getD k Body.dummy
      = w.bodies.getD k Body.dummy := by
    by_cases hk : k < w.bodies.length
    · rw [ListLemmas.getD_map _ _ _ _ Body.dummy hk, integrateForce_static _ _ _ hst]
    · rw [ListLemmas.getD_eq_default w.bodies k Body.dummy (by omega),
        ListLemmas.getD_eq_default _ k Body.dummy]
      simp only [List.length_map]
      omega
  have hallL1 : ∀ x ∈ w.bodies.map (integrateForceBody w.gravity dt), BodyOKb x = true := by
    intro x hx
    rw [List.mem_map] at hx
    obtain ⟨y, hy, rfl⟩ := hx
    exact integrateForce_OK (hall0 y hy) hg hdt
  have hcOK : ∀ mfd ∈ gatherContacts (w.bodies.map (integrateForceBody w.gravity dt)),
      ContactOKb mfd.contact = true := fun mfd hm2 => gather_contact_OK hallL1 hm2
  have hmL1 : ((w.bodies.map (integrateForceBody w.gravity dt)).getD k Body.dummy).inv_m
      = Flt.fin 0 := by
    rw [hL1k]
    exact hm
  have h3 := iterateSolve_preserve w.iterations
    (gatherContacts (w.bodies.map (integrateForceBody w.gravity dt)))
    (w.bodies.map (integrateForceBody w.gravity dt)) k hallL1 hcOK
  have hfr2 := iterateSolve_frame w.iterations
    (gatherContacts (w.bodies.map (integrateForceBody w.gravity dt)))
    (w.bodies.map (integrateForceBody w.gravity dt)) k
  have hstL2 : ((iterateSolve w.iterations
      (gatherContacts (w.bodies.map (integrateForceBody w.gravity dt)))
      (w.bodies.map (integrateForceBody w.gravity dt))).getD k Body.dummy).is_static
      = true := by
    rw [hfr2.2.2.2.2.2.2.2.2.2.2, hL1k]
    exact hst
  have hL3k : ((iterateSolve w.iterations
      (gatherContacts (w.bodies.map (integrateForceBody w.gravity dt)))
      (w.bodies.map (integrateForceBody w.gravity dt))).map (integratePosBody dt)).getD
        k Body.dummy
      = (iterateSolve w.iterations
      (gatherContacts (w.bodies.map (integrateForceBody w.gravity dt)))
      (w.bodies.map (integrateForceBody w.gravity dt))).getD k Body.dummy := by
    by_cases hk : k < (iterateSolve w.iterations
      (gatherContacts (w.bodies.map (integrateForceBody w.gravity dt)))
      (w.bodies.map (integrateForceBody w.gravity dt))).length
    · rw [ListLemmas.getD_map _ _ _ _ Body.dummy hk, integratePos_static _ _ hstL2]
    · rw [ListLemmas.getD_eq_default _ k Body.dummy
          (by simp only [List.length_map]; omega),
        ListLemmas.getD_eq_default _ k Body.dummy (by omega)]
  have hstL3 : (((iterateSolve w.iterations
      (gatherContacts (w.bodies.map (integrateForceBody w.gravity dt)))
      (w.bodies.map (integrateForceBody w.gravity dt))).map (integratePosBody dt)).getD
        k Body.dummy).is_static = true := by
    rw [hL3k]
    exact hstL2
  simp only [World.step]
  constructor
  · rw [pcFold_static_p _ _ _ hstL3, hL3k, hfr2.1, hL1k]
  · rw [(pcFold_frame _ _ _).2.1, hL3k, h3.2 hmL1, hL1k]

/-- Witness: the amended C1 theorem applied to the concrete two-body world
statDynWorld at index 0 (a static unit circle at the origin). -/
theorem c1_amended_witness :
    WorldOKb statDynWorld = true ∧ (Flt.fin (1/60)).isFin = true ∧
    (statDynWorld.bodies.getD 0 Body.dummy).is_static = true ∧
    (statDynWorld.bodies.getD 0 Body.dummy).inv_m = Flt.fin 0 ∧
    (((statDynWorld.step (Flt.fin (1/60))).bodies.getD 0 Body.dummy).p
        = (statDynWorld.bodies.getD 0 Body.dummy).p ∧
      ((statDynWorld.step (Flt.fin (1/60))).bodies.getD 0 Body.dummy).v
        = (statDynWorld.bodies.getD 0 Body.dummy).v) := by
  refine ⟨?_, rfl, rfl, rfl, c1_amended_static_zero_inv_mass_unmoved statDynWorld (Flt.fin (1/60)) 0 ?_ rfl rfl rfl⟩ <;>
    norm_num [WorldOKb, BodyOKb, Vec2OKb, MaterialOKb, ShapeOKb, Body.new_static,
      Body.new_dynamic, Material.default, ballB, statDynWorld, Flt.isFin, Flt.isNN,
      Vec2.zero, Flt.div_fin]
